import Mathlib

/-! # Bitstamp websocket client (`pkg/websocket/websocket.go`)

A shallow embedding of the streaming client: the wire envelope `WsEvent`, the
control calls `Subscribe`, `Unsubscribe` and `sendEvent`, the predicate
`IsReconnectRequest`, the stop call `Close` and the body of the reader
goroutine started by `NewWsClient`.

Library calls are represented by their documented behaviour:

* the transport (`*websocket.Conn`) is an oracle: the outcome of every
  `WriteJSON` call and what the network does for every `ReadMessage` call are
  supplied by the environment, and the calls made on it are recorded in order;
  on the read side the connection behaves as gorilla/websocket does: it keeps
  its first read error, returns it to every later read, and panics at the
  1000th read it counts on the failed connection;
* `encoding/json` is modelled on JSON text for the one target type used by the
  source, `*WsEvent`; a frame body is a text (a `[]byte` that holds valid
  UTF-8), and a JSON number is kept as the decimal it was written as rather
  than rounded to float64;
* `fmt.Errorf("...: %w", err)` builds an error that wraps `err`;
* `time.Now()` and the value of the read deadline are left out: a deadline
  that expires shows as a failed read.
-/

namespace Bitstamp

/-! ## Go values -/

/-- Go `error` values. `base` is an error produced by a library (transport or
decoder); `wrap msg inner` is the value of `fmt.Errorf(msg ++ ": %w", inner)`. -/
inductive GoError where
  | base (msg : String)
  | wrap (msg : String) (inner : GoError)
  deriving DecidableEq, Repr

/-- The method `Unwrap` of an error built with the `%w` verb. -/
def GoError.Unwrap : GoError → Option GoError
  | .base _ => none
  | .wrap _ inner => some inner

/-- The text of `err.Error()`. -/
def GoError.Error : GoError → String
  | .base msg => msg
  | .wrap msg inner => msg ++ ": " ++ inner.Error

/-- Whether `target` is met while following `Unwrap` from `err`
(the chain walked by `errors.Is`), `err` itself included. -/
def GoError.reaches : GoError → GoError → Bool
  | .base msg, target => decide (GoError.base msg = target)
  | .wrap msg inner, target =>
      decide (GoError.wrap msg inner = target) || inner.reaches target

/-- A dynamically typed Go value of the kind `encoding/json` produces and
consumes for an `interface{}`: `nil`, `bool`, number, `string`,
`[]interface{}` and `map[string]interface{}`. A number is carried as its
decimal literal; a map is carried as the list of its entries. -/
inductive JSON where
  | null
  | bool (b : Bool)
  | num (lit : String)
  | str (s : String)
  | arr (items : List JSON)
  | obj (members : List (String × JSON))
  deriving Repr

/-- The struct `WsEvent`, with its three fields in declaration order. -/
structure WsEvent where
  Event : String
  Channel : String
  Data : JSON
  deriving Repr

/-- The zero value `WsEvent{}`. -/
def WsEvent.zero : WsEvent := { Event := "", Channel := "", Data := JSON.null }

/-! ## `encoding/json`: reading JSON text -/

/-- The characters the JSON scanner skips between tokens. -/
def isSpace (c : Char) : Bool := c = ' ' || c = '\t' || c = '\r' || c = '\n'

/-- Drops leading white space. -/
def skipSpace : List Char → List Char
  | [] => []
  | c :: cs => if isSpace c then skipSpace cs else c :: cs

/-- Decimal digit test. -/
def isDigit (c : Char) : Bool := decide ('0' ≤ c) && decide (c ≤ '9')

/-- Value of a hexadecimal digit. -/
def hexVal (c : Char) : Option Nat :=
  if isDigit c then some (c.toNat - '0'.toNat)
  else if decide ('a' ≤ c) && decide (c ≤ 'f') then some (c.toNat - 'a'.toNat + 10)
  else if decide ('A' ≤ c) && decide (c ≤ 'F') then some (c.toNat - 'A'.toNat + 10)
  else none

/-- Reads one `\uXXXX` escape at the head of the input: the code unit and the
rest of the input. -/
def getu4 : List Char → Option (Nat × List Char)
  | b :: u :: h1 :: h2 :: h3 :: h4 :: rest =>
      if b = '\\' ∧ u = 'u' then
        match hexVal h1, hexVal h2, hexVal h3, hexVal h4 with
        | some x1, some x2, some x3, some x4 =>
            some (((x1 * 16 + x2) * 16 + x3) * 16 + x4, rest)
        | _, _, _, _ => none
      else none
  | _ => none

/-- The one-character escapes of a JSON string. -/
def simpleEscape (c : Char) : Option Char :=
  if c = '\x22' then some '\x22'
  else if c = '\\' then some '\\'
  else if c = '/' then some '/'
  else if c = 'b' then some '\x08'
  else if c = 'f' then some '\x0c'
  else if c = 'n' then some '\n'
  else if c = 'r' then some '\r'
  else if c = 't' then some '\t'
  else none

/-- Reads a string literal whose opening quote has been consumed: the unquoted
text and the input after the closing quote. Control characters and unknown
escapes are rejected; a `\u` escape that is half of no surrogate pair becomes
U+FFFD. -/
def scanString : Nat → List Char → List Char → Option (String × List Char)
  | 0, _, _ => none
  | fuel + 1, cs, acc =>
    match cs with
    | [] => none
    | c :: rest =>
      if c = '\x22' then some (String.mk acc.reverse, rest)
      else if c = '\\' then
        match rest with
        | [] => none
        | e :: rest1 =>
          if e = 'u' then
            match getu4 cs with
            | none => none
            | some (rr, rest2) =>
              if 0xD800 ≤ rr ∧ rr < 0xE000 then
                match getu4 rest2 with
                | some (rr1, rest3) =>
                  if rr < 0xDC00 ∧ 0xDC00 ≤ rr1 ∧ rr1 < 0xE000 then
                    scanString fuel rest3
                      (Char.ofNat (0x10000 + (rr - 0xD800) * 0x400 + (rr1 - 0xDC00)) :: acc)
                  else scanString fuel rest2 (Char.ofNat 0xFFFD :: acc)
                | none => scanString fuel rest2 (Char.ofNat 0xFFFD :: acc)
              else scanString fuel rest2 (Char.ofNat rr :: acc)
          else
            match simpleEscape e with
            | none => none
            | some x => scanString fuel rest1 (x :: acc)
      else if c.toNat < 0x20 then none
      else scanString fuel rest (c :: acc)

/-- Splits off the longest run of decimal digits. -/
def takeDigits : List Char → List Char × List Char
  | [] => ([], [])
  | c :: cs =>
      if isDigit c then
        match takeDigits cs with
        | (ds, rest) => (c :: ds, rest)
      else ([], c :: cs)

/-- The parts of a number literal. -/
structure NumberParts where
  neg : Bool
  int : List Char
  frac : List Char
  expNeg : Bool
  exp : List Char

/-- Reads the integer part of a number: a lone `0`, or a digit run that starts
with a non-zero digit. -/
def scanInt : List Char → Option (List Char × List Char)
  | [] => none
  | c :: cs =>
      if c = '0' then some ([c], cs)
      else if isDigit c then
        match takeDigits cs with
        | (ds, rest) => some (c :: ds, rest)
      else none

/-- Reads an optional fraction: a point followed by at least one digit. -/
def scanFrac : List Char → Option (List Char × List Char)
  | [] => some ([], [])
  | c :: cs =>
      if c = '.' then
        match takeDigits cs with
        | ([], _) => none
        | (ds, rest) => some (ds, rest)
      else some ([], c :: cs)

/-- Reads an optional exponent: `e` or `E`, an optional sign, at least one digit. -/
def scanExp : List Char → Option (Bool × List Char × List Char)
  | [] => some (false, [], [])
  | c :: cs =>
      if c = 'e' ∨ c = 'E' then
        let signed : Bool × List Char :=
          match cs with
          | s :: cs1 => if s = '-' then (true, cs1) else if s = '+' then (false, cs1) else (false, cs)
          | [] => (false, [])
        match takeDigits signed.2 with
        | ([], _) => none
        | (ds, rest) => some (signed.1, ds, rest)
      else some (false, [], c :: cs)

/-- Reads a number literal at the head of the input. -/
def scanNumber (cs : List Char) : Option (NumberParts × List Char) :=
  let signed : Bool × List Char :=
    match cs with
    | c :: cs1 => if c = '-' then (true, cs1) else (false, cs)
    | [] => (false, [])
  match scanInt signed.2 with
  | none => none
  | some (int, rest1) =>
    match scanFrac rest1 with
    | none => none
    | some (frac, rest2) =>
      match scanExp rest2 with
      | none => none
      | some (expNeg, exp, rest3) =>
          some ({ neg := signed.1, int := int, frac := frac, expNeg := expNeg, exp := exp }, rest3)

/-- The text of a number literal, rebuilt from its parts. -/
def NumberParts.lit (p : NumberParts) : String :=
  String.mk ((if p.neg then ['-'] else []) ++ p.int
    ++ (if p.frac = [] then [] else '.' :: p.frac)
    ++ (if p.exp = [] then [] else 'e' :: (if p.expNeg then ['-'] else []) ++ p.exp))

/-- The number written by a run of decimal digits. -/
def digitsVal (ds : List Char) : Nat :=
  ds.foldl (fun n c => n * 10 + (c.toNat - '0'.toNat)) 0

/-- Whether `strconv.ParseFloat(lit, 64)` reports a range error: the decimal
is at least `2^1024 - 2^970` in magnitude, the least value that rounds to
infinity. -/
def NumberParts.overflows (p : NumberParts) : Bool :=
  let mant := digitsVal (p.int ++ p.frac)
  let e : Int := (if p.expNeg then -(digitsVal p.exp : Int) else (digitsVal p.exp : Int))
    - (p.frac.length : Int)
  if mant = 0 then false
  else if 0 ≤ e then
    if 400 < e then true else decide (2 ^ 1024 - 2 ^ 970 ≤ mant * 10 ^ e.toNat)
  else decide ((2 ^ 1024 - 2 ^ 970) * 10 ^ (-e).toNat ≤ mant)

/-- Nesting limit of the scanner. -/
def maxNestingDepth : Nat := 10000

/-- Reads the elements of a non-empty array after its opening bracket, `pv`
reading one value. -/
def scanElems (pv : List Char → Option (JSON × List Char)) :
    Nat → List Char → List JSON → Option (List JSON × List Char)
  | 0, _, _ => none
  | n + 1, cs, acc =>
    match pv cs with
    | none => none
    | some (v, rest) =>
      match skipSpace rest with
      | [] => none
      | c :: rest1 =>
        if c = ',' then scanElems pv n rest1 (v :: acc)
        else if c = ']' then some ((v :: acc).reverse, rest1)
        else none

/-- Reads the members of a non-empty object after its opening brace, `pv`
reading one value. Members are kept in the order written, repeated keys
included. -/
def scanMembers (pv : List Char → Option (JSON × List Char)) :
    Nat → List Char → List (String × JSON) → Option (List (String × JSON) × List Char)
  | 0, _, _ => none
  | n + 1, cs, acc =>
    match skipSpace cs with
    | [] => none
    | q :: rest =>
      if q = '\x22' then
        match scanString (rest.length + 1) rest [] with
        | none => none
        | some (key, rest1) =>
          match skipSpace rest1 with
          | [] => none
          | colon :: rest2 =>
            if colon = ':' then
              match pv rest2 with
              | none => none
              | some (v, rest3) =>
                match skipSpace rest3 with
                | [] => none
                | c :: rest4 =>
                  if c = ',' then scanMembers pv n rest4 ((key, v) :: acc)
                  else if c = '\x7d' then some (((key, v) :: acc).reverse, rest4)
                  else none
            else none
      else none

/-- Strips a fixed word from the head of the input. -/
def stripWord : List Char → List Char → Option (List Char)
  | [], cs => some cs
  | _ :: _, [] => none
  | w :: ws, c :: cs => if w = c then stripWord ws cs else none

/-- Reads one JSON value, with `depth` containers open around it. -/
def scanValue : Nat → Nat → List Char → Option (JSON × List Char)
  | 0, _, _ => none
  | fuel + 1, depth, cs =>
    match skipSpace cs with
    | [] => none
    | c :: rest =>
      if c = '\x7b' then
        if maxNestingDepth ≤ depth then none
        else
          match skipSpace rest with
          | [] => none
          | c1 :: rest1 =>
            if c1 = '\x7d' then some (JSON.obj [], rest1)
            else (scanMembers (scanValue fuel (depth + 1)) fuel rest []).map
              (fun r => (JSON.obj r.1, r.2))
      else if c = '[' then
        if maxNestingDepth ≤ depth then none
        else
          match skipSpace rest with
          | [] => none
          | c1 :: rest1 =>
            if c1 = ']' then some (JSON.arr [], rest1)
            else (scanElems (scanValue fuel (depth + 1)) fuel rest []).map
              (fun r => (JSON.arr r.1, r.2))
      else if c = '\x22' then
        (scanString (rest.length + 1) rest []).map (fun r => (JSON.str r.1, r.2))
      else if c = 't' then (stripWord "rue".data rest).map (fun r => (JSON.bool true, r))
      else if c = 'f' then (stripWord "alse".data rest).map (fun r => (JSON.bool false, r))
      else if c = 'n' then (stripWord "ull".data rest).map (fun r => (JSON.null, r))
      else (scanNumber (c :: rest)).map (fun r => (JSON.num r.1.lit, r.2))

/-- The value written by a JSON text, or `none` when the text is not valid
JSON (the check `json.Unmarshal` makes before it stores anything). White space
may surround the value; nothing else may follow it. -/
def parseJSON (body : String) : Option JSON :=
  match scanValue (body.length + 1) 0 body.data with
  | none => none
  | some (v, rest) => if skipSpace rest = [] then some v else none

/-! ## `encoding/json`: storing into `*WsEvent` -/

/-- The error `json.Unmarshal` returns for text that is not valid JSON. The
library's message names the offending character; the model keeps one message. -/
def jsonSyntaxError : GoError := GoError.base "json: invalid JSON text"

/-- The error `json.Unmarshal` returns when a JSON value does not fit the Go
type it is stored into (`*json.UnmarshalTypeError`). -/
def jsonTypeError (value target : String) : GoError :=
  GoError.base ("json: cannot unmarshal " ++ value ++ " into Go " ++ target)

/-- Assignment `m[k] = v` on a map kept as an association list. -/
def mapSet (k : String) (v : JSON) : List (String × JSON) → List (String × JSON)
  | [] => [(k, v)]
  | (k1, v1) :: rest => if k1 = k then (k, v) :: rest else (k1, v1) :: mapSet k v rest

/-- Collapses repeated keys of a decoded map, later values replacing earlier
ones. -/
def mapOfMembers (members : List (String × JSON)) : List (String × JSON) :=
  members.foldl (fun m kv => mapSet kv.1 kv.2 m) []

/-- Whether a number literal kept in the tree is out of the range of float64. -/
def litOverflows (lit : String) : Bool :=
  match scanNumber lit.data with
  | some (p, _) => p.overflows
  | none => false

mutual
/-- The Go value stored into an `interface{}` for a JSON value: an object
becomes a map, so a repeated key keeps its last value; a number must fit
float64. -/
def toInterface : JSON → Except GoError JSON
  | .num lit =>
      if litOverflows lit then .error (jsonTypeError ("number " ++ lit) "value of type float64")
      else .ok (.num lit)
  | .arr items => (toInterfaceList items).map JSON.arr
  | .obj members => (toInterfaceMap members).map (fun m => JSON.obj (mapOfMembers m))
  | .null => .ok .null
  | .bool b => .ok (.bool b)
  | .str s => .ok (.str s)
/-- Elementwise `toInterface`, for `[]interface{}`. -/
def toInterfaceList : List JSON → Except GoError (List JSON)
  | [] => .ok []
  | x :: xs =>
    match toInterface x with
    | .error e => .error e
    | .ok y => (toInterfaceList xs).map (fun ys => y :: ys)
/-- Memberwise `toInterface`, for `map[string]interface{}`. -/
def toInterfaceMap : List (String × JSON) → Except GoError (List (String × JSON))
  | [] => .ok []
  | (k, x) :: xs =>
    match toInterface x with
    | .error e => .error e
    | .ok y => (toInterfaceMap xs).map (fun m => (k, y) :: m)
end

/-- The name of the kind of a JSON value, as used in type errors. -/
def JSON.kind : JSON → String
  | .null => "null"
  | .bool _ => "bool"
  | .num _ => "number"
  | .str _ => "string"
  | .arr _ => "array"
  | .obj _ => "object"

/-- The fields of `WsEvent`. -/
inductive Field where
  | Event
  | Channel
  | Data
  deriving DecidableEq, Repr

/-- The JSON name of each field, from its struct tag. -/
def Field.tag : Field → String
  | .Event => "event"
  | .Channel => "channel"
  | .Data => "data"

/-- The field an object key is stored into: the field whose tag is the key,
else the field whose tag equals the key up to letter case, else none (the key
is skipped). -/
def fieldOfKey (key : String) : Option Field :=
  match [Field.Event, Field.Channel, Field.Data].find? (fun f => f.tag = key) with
  | some f => some f
  | none => [Field.Event, Field.Channel, Field.Data].find? (fun f => f.tag = key.map Char.toLower)

/-- The decoder state while an object is stored into a `WsEvent`: the struct
so far and the first error saved. -/
structure DecodeState where
  ev : WsEvent
  saved : Option GoError

/-- Records an error unless one is already saved. -/
def DecodeState.saveError (d : DecodeState) (e : GoError) : DecodeState :=
  match d.saved with
  | some _ => d
  | none => { d with saved := some e }

/-- Stores a JSON value into a string field: a string is stored, `null`
leaves the field as it is, anything else is a type error. -/
def storeString (d : DecodeState) (f : Field) (set : String → WsEvent) (v : JSON) : DecodeState :=
  match v with
  | .str s => { d with ev := set s }
  | .null => d
  | other => d.saveError (jsonTypeError other.kind ("struct field WsEvent." ++ f.tag ++ " of type string"))

/-- Stores one object member into the struct. -/
def storeMember (d : DecodeState) (kv : String × JSON) : DecodeState :=
  match fieldOfKey kv.1 with
  | none => d
  | some .Event => storeString d .Event (fun s => { d.ev with Event := s }) kv.2
  | some .Channel => storeString d .Channel (fun s => { d.ev with Channel := s }) kv.2
  | some .Data =>
    match toInterface kv.2 with
    | .ok x => { d with ev := { d.ev with Data := x } }
    | .error e => d.saveError e

/-- Stores a JSON value into a zero `WsEvent`: an object is stored member by
member in the order written, `null` stores nothing, any other value is a type
error. The first error saved is the result. -/
def decodeWsEvent : JSON → Except GoError WsEvent
  | .obj members =>
      let d := members.foldl storeMember { ev := WsEvent.zero, saved := none }
      match d.saved with
      | some e => .error e
      | none => .ok d.ev
  | .null => .ok WsEvent.zero
  | other => .error (jsonTypeError other.kind "value of type websocket.WsEvent")

/-- The call `json.Unmarshal(message, e)` with `e := &WsEvent{}`: the error
returned, or the struct `e` points to afterwards. -/
def jsonUnmarshal (message : String) : Except GoError WsEvent :=
  match parseJSON message with
  | none => .error jsonSyntaxError
  | some v => decodeWsEvent v

/-! ## `encoding/json`: writing a `WsEvent` -/

/-- The JSON object `json.Marshal` writes for a `WsEvent`: one member per
struct field, in declaration order, named by the field tags. No tag carries
`omitempty`, so every field is written whatever its value. -/
def marshalWsEvent (e : WsEvent) : JSON :=
  JSON.obj [(Field.Event.tag, JSON.str e.Event), (Field.Channel.tag, JSON.str e.Channel),
    (Field.Data.tag, e.Data)]

/-- The member names of a JSON object, in the order written. -/
def JSON.keys : JSON → List String
  | .obj members => members.map Prod.fst
  | _ => []

/-- The value of a member of a JSON object. -/
def JSON.member (name : String) : JSON → Option JSON
  | .obj members => (members.find? (fun kv => kv.1 = name)).map Prod.snd
  | _ => none

/-! ## The client -/

/-- What one `c.ws.ReadMessage()` call returns: an error, or a frame body. -/
abbrev ReadResult := Except GoError String

/-- What the network does for one `ReadMessage` call on a connection that has
not failed: it delivers a frame; or the read fails before a frame has started
(inside `NextReader`, for instance when the deadline expires while the
connection is idle); or it fails while the body of a frame is being read. -/
inductive Delivery where
  | frame (body : String)
  | failNext (err : GoError)
  | failBody (err : GoError)

/-- How a `c.ws.ReadMessage()` call ends: it returns, or it panics. -/
inductive ReadOutcome where
  | returned (r : ReadResult)
  | panicked

/-- The actions of the reader goroutine, in program order. -/
inductive Action where
  /-- `c.ws.SetReadDeadline(time.Now().Add(c.timeout))` -/
  | SetReadDeadline
  /-- the branch `case <-c.done` of the `select` received a value -/
  | recvDone
  /-- `c.ws.ReadMessage()` was called and returned `r` -/
  | ReadMessage (r : ReadResult)
  /-- `c.ws.ReadMessage()` was called and panicked -/
  | ReadMessagePanics
  /-- `c.Errors <- err` -/
  | sendErrors (err : GoError)
  /-- `c.Stream <- e` -/
  | sendStream (e : WsEvent)
  /-- the deferred `c.ws.Close()` -/
  | wsClose

/-- The struct `WsClient` together with what its environment observes.

* `writeOutcome k` is what the transport answers to the `k`-th `WriteJSON`
  call on `c.ws` (`none` for success); `written` lists the values handed to
  `WriteJSON` so far.
* `sendLock` is `true` while the mutex is held.
* `done` is the content of the channel `c.done`, whose capacity is 1.
* `Stream` and `Errors` list the values the consumer has received from the
  two unbuffered channels: a send on them completes when the consumer takes
  the value, and the consumer is taken to be draining both.
* `readErr` and `readErrCount` are the two fields of `c.ws` that decide what
  a read does: the connection keeps its first read error and counts the
  `NextReader` calls that ended in it.
* `trace` lists the actions of the reader goroutine; `exited` says that the
  goroutine has ended, `panicked` that it ended in a panic, which nothing
  recovers and which therefore ends the program. -/
structure WsClient where
  writeOutcome : Nat → Option GoError
  written : List WsEvent
  sendLock : Bool
  done : List Bool
  Stream : List WsEvent
  Errors : List GoError
  readErr : Option GoError
  readErrCount : Nat
  trace : List Action
  exited : Bool
  panicked : Bool

/-- A client whose dial succeeded: nothing written, nothing received, the
stop channel empty, the reader goroutine started. -/
def WsClient.fresh (writeOutcome : Nat → Option GoError) : WsClient :=
  { writeOutcome := writeOutcome, written := [], sendLock := false, done := [],
    Stream := [], Errors := [], readErr := none, readErrCount := 0, trace := [],
    exited := false, panicked := false }

/-- The client `NewWsClient` returns, or the error it returns when the dial
fails (`dial` is the error of `websocket.DefaultDialer.Dial`, if any). -/
def NewWsClient (dial : Option GoError) (writeOutcome : Nat → Option GoError) :
    Except GoError WsClient :=
  match dial with
  | some err => .error (GoError.base ("error dialing websocket: " ++ err.Error))
  | none => .ok (WsClient.fresh writeOutcome)

/-- `Close`: `c.done <- true`. The channel holds one value; a send on a full
channel does not complete, which leaves the client as it is. -/
def Close (c : WsClient) : WsClient :=
  if c.done.length < 1 then { c with done := c.done ++ [true] } else c

/-- `sendEvent`: takes the mutex, calls `c.ws.WriteJSON(&sub)`, and releases
the mutex on return (the deferred `Unlock`). -/
def sendEvent (c : WsClient) (sub : WsEvent) : WsClient × Option GoError :=
  let c1 := { c with sendLock := true }
  let res := c1.writeOutcome c1.written.length
  let c2 := { c1 with written := c1.written ++ [sub] }
  match res with
  | some err => ({ c2 with sendLock := false }, some (GoError.wrap "c.ws.WriteJSON" err))
  | none => ({ c2 with sendLock := false }, none)

/-- The envelope `Subscribe` builds for a channel. -/
def subscribeEvent (channel : String) : WsEvent :=
  { Event := "bts:subscribe", Channel := "", Data := JSON.obj [("channel", JSON.str channel)] }

/-- The envelope `Unsubscribe` builds for a channel. -/
def unsubscribeEvent (channel : String) : WsEvent :=
  { Event := "bts:unsubscribe", Channel := "", Data := JSON.obj [("channel", JSON.str channel)] }

/-- `Subscribe`: one `sendEvent` per channel, returning at the first error. -/
def Subscribe (c : WsClient) : List String → WsClient × Option GoError
  | [] => (c, none)
  | channel :: rest =>
    match sendEvent c (subscribeEvent channel) with
    | (c1, some err) => (c1, some (GoError.wrap "c.sendEvent" err))
    | (c1, none) => Subscribe c1 rest

/-- `Unsubscribe`: one `sendEvent` per channel, returning at the first error. -/
def Unsubscribe (c : WsClient) : List String → WsClient × Option GoError
  | [] => (c, none)
  | channel :: rest =>
    match sendEvent c (unsubscribeEvent channel) with
    | (c1, some err) => (c1, some (GoError.wrap "c.sendEvent" err))
    | (c1, none) => Unsubscribe c1 rest

/-- `IsReconnectRequest`, for a non-nil `event`. -/
def IsReconnectRequest (_c : WsClient) (event : WsEvent) : Bool :=
  decide (event.Event = "bts:request_reconnect")

/-! ## The reader goroutine -/

/-- Appends actions to the trace of the reader goroutine. -/
def WsClient.act (c : WsClient) (acts : List Action) : WsClient :=
  { c with trace := c.trace ++ acts }

/-- The number of reads on a failed connection at which the transport panics
("repeated read on failed websocket connection"). -/
def maxReadErrCount : Nat := 1000

/-- The end of `NextReader` on a failed connection: the failed read is
counted, and the call panics if the count has reached `maxReadErrCount`,
else returns the error the connection keeps. -/
def countFailedRead (c : WsClient) (err : GoError) : WsClient × ReadOutcome :=
  let c1 := { c with readErrCount := c.readErrCount + 1 }
  if maxReadErrCount ≤ c1.readErrCount then (c1, ReadOutcome.panicked)
  else (c1, ReadOutcome.returned (.error err))

/-- `c.ws.ReadMessage()`, the network doing `d` if the connection has not
failed yet. A connection that has failed stays failed: every later call ends
in `countFailedRead` with the error kept. On a live connection a frame is
returned; a failure in `NextReader` is kept and counted; a failure while the
body is read is kept and returned, uncounted. -/
def ReadMessage (c : WsClient) (d : Delivery) : WsClient × ReadOutcome :=
  match c.readErr with
  | some err => countFailedRead c err
  | none =>
    match d with
    | .frame body => (c, ReadOutcome.returned (.ok body))
    | .failNext err => countFailedRead { c with readErr := some err } err
    | .failBody err => ({ c with readErr := some err }, ReadOutcome.returned (.error err))

/-- One pass through the body of the `for` loop of the reader goroutine, `d`
being what the network does if `ReadMessage` is called in this pass.

The deadline is set first. If `c.done` holds a value the `select` takes it and
the goroutine returns, which runs the deferred `c.ws.Close()`. Otherwise the
`default` branch reads a frame: a read error goes to `c.Errors`; a frame that
`json.Unmarshal` rejects sends that error to `c.Errors`; a decoded frame goes
to `c.Stream`. If `ReadMessage` panics the goroutine unwinds through the
deferred `c.ws.Close()` and ends. -/
def readerIter (c : WsClient) (d : Delivery) : WsClient :=
  let c1 := c.act [Action.SetReadDeadline]
  match c1.done with
  | _ :: rest => { (c1.act [Action.recvDone, Action.wsClose]) with done := rest, exited := true }
  | [] =>
    match ReadMessage c1 d with
    | (c2, .panicked) =>
      { (c2.act [Action.ReadMessagePanics, Action.wsClose]) with exited := true, panicked := true }
    | (c2, .returned r) =>
      let c3 := c2.act [Action.ReadMessage r]
      match r with
      | .error err => { (c3.act [Action.sendErrors err]) with Errors := c3.Errors ++ [err] }
      | .ok message =>
        match jsonUnmarshal message with
        | .error err => { (c3.act [Action.sendErrors err]) with Errors := c3.Errors ++ [err] }
        | .ok e => { (c3.act [Action.sendStream e]) with Stream := c3.Stream ++ [e] }

/-- What happens next to a client: the caller invokes `Close`, or the reader
goroutine makes one pass through its loop. -/
inductive Step where
  | Close
  | iter (d : Delivery)

/-- One step of the client. A goroutine that has ended makes no pass, and
nothing happens in a program that a panic has ended. -/
def step (c : WsClient) : Step → WsClient
  | .Close => if c.panicked then c else Close c
  | .iter d => if c.exited then c else readerIter c d

/-- A run of the client: the steps taken one after the other. -/
def run (c : WsClient) (steps : List Step) : WsClient :=
  steps.foldl step c

/-- The steps in which the transport delivers the given frames, one per pass,
and `Close` is not called. -/
def deliver (frames : List String) : List Step :=
  frames.map (fun f => Step.iter (Delivery.frame f))

/-- The envelope a frame puts on `Stream`, if it decodes. -/
def decoded (frame : String) : Option WsEvent :=
  match jsonUnmarshal frame with
  | .ok e => some e
  | .error _ => none

/-- The error a frame puts on `Errors`, if it does not decode. -/
def decodeError (frame : String) : Option GoError :=
  match jsonUnmarshal frame with
  | .ok _ => none
  | .error err => some err

/-- The actions of one pass that reads the frame `frame`. -/
def frameActions (frame : String) : List Action :=
  [Action.SetReadDeadline, Action.ReadMessage (.ok frame),
    match jsonUnmarshal frame with
    | .ok e => Action.sendStream e
    | .error err => Action.sendErrors err]

/-- Whether an action is the transport's `Close`. -/
def Action.isClose : Action → Bool
  | .wsClose => true
  | _ => false

/-- Whether an action is a `ReadMessage` call. -/
def Action.isRead : Action → Bool
  | .ReadMessage _ => true
  | .ReadMessagePanics => true
  | _ => false

/-- Whether an action is the receipt of the stop signal. -/
def Action.isRecvDone : Action → Bool
  | .recvDone => true
  | _ => false

/-- The event a JSON object carries for a `WsEvent`: the string of the last
member that is stored into the `Event` field and holds a string (a `null`
there stores nothing); empty if there is none. -/
def eventMember (members : List (String × JSON)) : String :=
  members.foldl (fun ev kv =>
    match fieldOfKey kv.1, kv.2 with
    | some Field.Event, JSON.str s => s
    | _, _ => ev) ""

/-! ## Closed forms used in the proofs -/

/-- The loop shared by `Subscribe` and `Unsubscribe`, for an envelope builder
`mk`. -/
def sendAll (mk : String → WsEvent) (c : WsClient) : List String → WsClient × Option GoError
  | [] => (c, none)
  | channel :: rest =>
    match sendEvent c (mk channel) with
    | (c1, some err) => (c1, some (GoError.wrap "c.sendEvent" err))
    | (c1, none) => sendAll mk c1 rest

/-- A run of at most `n` writes that starts with write number `k` and stops at
the first failing one: how many writes are attempted, and the transport error
that stopped the run, if any. -/
def attempts (wo : Nat → Option GoError) : Nat → Nat → Nat × Option GoError
  | _, 0 => (0, none)
  | k, n + 1 =>
    match wo k with
    | some e => (1, some e)
    | none => ((attempts wo (k + 1) n).1 + 1, (attempts wo (k + 1) n).2)

/-! ## Concurrent callers

Any number of callers, each making a sequence of `Subscribe` and `Unsubscribe`
calls on one client. A caller advances by the statements of `Subscribe`,
`Unsubscribe` and `sendEvent`; a schedule names the caller that advances next.
`c.sendLock.Lock()` advances only when the mutex is free. A `WriteJSON` call
takes two steps, its start and its return, and is in flight in between. -/

/-- Which of the two control calls a caller is in. -/
inductive Verb where
  | subscribe
  | unsubscribe

/-- The envelope a call builds for a channel. -/
def Verb.event : Verb → String → WsEvent
  | .subscribe => subscribeEvent
  | .unsubscribe => unsubscribeEvent

/-- One call: `Subscribe(channels...)` or `Unsubscribe(channels...)`. -/
structure Call where
  verb : Verb
  channels : List String

/-- The statement a caller executes next. -/
inductive Pc where
  /-- outside any call -/
  | idle
  /-- at the head of `for _, channel := range channels`, `rest` still to go -/
  | loop (v : Verb) (rest : List String)
  /-- in `sendEvent`, at `c.sendLock.Lock()` -/
  | lock (v : Verb) (sub : WsEvent) (rest : List String)
  /-- holding the mutex, at `c.ws.WriteJSON(&sub)` -/
  | write (v : Verb) (sub : WsEvent) (rest : List String)
  /-- inside `WriteJSON`, the `k`-th call on the transport -/
  | writing (v : Verb) (k : Nat) (rest : List String)
  /-- `WriteJSON` has returned `res`; the deferred `c.sendLock.Unlock()` is next -/
  | unlock (v : Verb) (res : Option GoError) (rest : List String)

/-- A caller: where it stands, the calls it has still to make, and what its
finished calls returned. -/
structure Caller where
  pc : Pc
  calls : List Call
  returned : List (Option GoError)

/-- The client shared by the callers. `inFlight` counts the `WriteJSON` calls
that have started and not yet returned. -/
structure Shared where
  writeOutcome : Nat → Option GoError
  written : List WsEvent
  sendLock : Bool
  inFlight : Nat
  callers : Nat → Caller

/-- Replaces the state of caller `i`. -/
def Shared.setCaller (s : Shared) (i : Nat) (t : Caller) : Shared :=
  { s with callers := fun j => if j = i then t else s.callers j }

/-- Caller `i` executes its next statement, if it can. -/
def Shared.step (s : Shared) (i : Nat) : Shared :=
  let t := s.callers i
  match t.pc with
  | .idle =>
    match t.calls with
    | [] => s
    | call :: more => s.setCaller i { t with pc := .loop call.verb call.channels, calls := more }
  | .loop _ [] => s.setCaller i { t with pc := .idle, returned := t.returned ++ [none] }
  | .loop v (channel :: rest) => s.setCaller i { t with pc := .lock v (v.event channel) rest }
  | .lock v sub rest =>
    if s.sendLock then s
    else { s.setCaller i { t with pc := .write v sub rest } with sendLock := true }
  | .write v sub rest =>
    { s.setCaller i { t with pc := .writing v s.written.length rest } with
      written := s.written ++ [sub], inFlight := s.inFlight + 1 }
  | .writing v k rest =>
    { s.setCaller i
        { t with pc := .unlock v ((s.writeOutcome k).map (GoError.wrap "c.ws.WriteJSON")) rest } with
      inFlight := s.inFlight - 1 }
  | .unlock v res rest =>
    match res with
    | some err =>
      { s.setCaller i
          { t with pc := .idle, returned := t.returned ++ [some (GoError.wrap "c.sendEvent" err)] } with
        sendLock := false }
    | none => { s.setCaller i { t with pc := .loop v rest } with sendLock := false }

/-- The callers advance in the order the schedule gives. -/
def Shared.run (s : Shared) (schedule : List Nat) : Shared :=
  schedule.foldl Shared.step s

/-- The start: a fresh client, and every caller about to make its calls. -/
def Shared.start (writeOutcome : Nat → Option GoError) (calls : Nat → List Call) : Shared :=
  { writeOutcome := writeOutcome, written := [], sendLock := false, inFlight := 0,
    callers := fun i => { pc := .idle, calls := calls i, returned := [] } }

/-- Whether the caller holds the mutex: it has passed `Lock` and not yet run
the deferred `Unlock`. -/
def Pc.holdsLock : Pc → Bool
  | .write _ _ _ => true
  | .writing _ _ _ => true
  | .unlock _ _ _ => true
  | _ => false

/-- Whether the caller is inside `WriteJSON`. -/
def Pc.isWriting : Pc → Bool
  | .writing _ _ _ => true
  | _ => false

/-- The sequential function for a call. -/
def Call.apply (call : Call) (c : WsClient) : WsClient × Option GoError :=
  match call.verb with
  | .subscribe => Subscribe c call.channels
  | .unsubscribe => Unsubscribe c call.channels

/-- The callers in which caller 0 makes the one call `call` and nobody else
calls. -/
def soloCalls (call : Call) : Nat → List Call :=
  fun i => if i = 0 then [call] else []

/-! ## Invariants -/

/-- The shape of the trace of the reader goroutine. While it runs, it has
neither taken the stop signal, nor seen `ReadMessage` panic, nor closed the
connection. Once it has ended, its last two actions are either taking the stop
signal and closing the connection, or the panic of `ReadMessage` and closing
the connection, and none of the three occurs earlier. The failed reads the
connection has counted are at most the errors put on `Errors`, plus the one
read that panicked. -/
def TraceShape (c : WsClient) : Prop :=
  (c.exited = false → c.panicked = false ∧ Action.recvDone ∉ c.trace ∧
    Action.ReadMessagePanics ∉ c.trace ∧ Action.wsClose ∉ c.trace) ∧
  (c.exited = true → ∃ front,
    ((c.trace = front ++ [Action.recvDone, Action.wsClose] ∧ c.panicked = false) ∨
      (c.trace = front ++ [Action.ReadMessagePanics, Action.wsClose] ∧ c.panicked = true ∧
        maxReadErrCount ≤ c.readErrCount)) ∧
    Action.recvDone ∉ front ∧ Action.ReadMessagePanics ∉ front ∧ Action.wsClose ∉ front) ∧
  (c.readErrCount ≤ c.Errors.length + (if c.panicked then 1 else 0))

/-- The mutual exclusion invariant of the send guard: at most one caller holds
the mutex, none when it is free; the number of writes in flight is the number
of callers inside `WriteJSON`, which is 0 or 1; and every value handed to the
transport, or about to be, is a whole envelope built by `Subscribe` or
`Unsubscribe`. -/
def Shared.Exclusive (s : Shared) : Prop :=
  (∀ i j, (s.callers i).pc.holdsLock = true → (s.callers j).pc.holdsLock = true → i = j) ∧
  (s.sendLock = false → ∀ i, (s.callers i).pc.holdsLock = false) ∧
  ((∃ i, (s.callers i).pc.isWriting = true) → s.inFlight = 1) ∧
  ((∀ i, (s.callers i).pc.isWriting = false) → s.inFlight = 0) ∧
  (∀ i v sub rest, ((s.callers i).pc = Pc.lock v sub rest ∨ (s.callers i).pc = Pc.write v sub rest) →
    ∃ name, sub = v.event name) ∧
  (∀ e ∈ s.written, ∃ (v : Verb) (name : String), e = v.event name)


/-! # Theorems -/

/-! ## The control protocol -/

theorem Subscribe_eq_sendAll (c : WsClient) (chs : List String) :
    Subscribe c chs = sendAll subscribeEvent c chs := by
  induction chs generalizing c with
  | nil => rfl
  | cons ch rest ih =>
    simp only [Subscribe, sendAll]
    cases h : sendEvent c (subscribeEvent ch) with
    | mk c1 r =>
      cases r with
      | none => simp [ih]
      | some e => simp

theorem Unsubscribe_eq_sendAll (c : WsClient) (chs : List String) :
    Unsubscribe c chs = sendAll unsubscribeEvent c chs := by
  induction chs generalizing c with
  | nil => rfl
  | cons ch rest ih =>
    simp only [Unsubscribe, sendAll]
    cases h : sendEvent c (unsubscribeEvent ch) with
    | mk c1 r =>
      cases r with
      | none => simp [ih]
      | some e => simp

theorem attempts_le (wo : Nat → Option GoError) (k n : Nat) : (attempts wo k n).1 ≤ n := by
  induction n generalizing k with
  | zero => simp [attempts]
  | succ n ih =>
    simp only [attempts]
    cases h : wo k with
    | none => simp; exact ih (k + 1)
    | some e => simp

theorem attempts_all_ok (wo : Nat → Option GoError) (k n : Nat)
    (h : ∀ j, j < n → wo (k + j) = none) : attempts wo k n = (n, none) := by
  induction n generalizing k with
  | zero => simp [attempts]
  | succ n ih =>
    have h0 : wo k = none := by simpa using h 0 (Nat.succ_pos n)
    have hn : attempts wo (k + 1) n = (n, none) := by
      apply ih
      intro j hj
      have := h (j + 1) (Nat.succ_lt_succ hj)
      rwa [show k + (j + 1) = k + 1 + j by omega] at this
    simp [attempts, h0, hn]

theorem attempts_first_failure (wo : Nat → Option GoError) (k n i : Nat) (e : GoError)
    (hi : i < n) (hok : ∀ j, j < i → wo (k + j) = none) (hfail : wo (k + i) = some e) :
    attempts wo k n = (i + 1, some e) := by
  induction n generalizing k i with
  | zero => omega
  | succ n ih =>
    cases i with
    | zero =>
      have : wo k = some e := by simpa using hfail
      simp [attempts, this]
    | succ i =>
      have h0 : wo k = none := by simpa using hok 0 (Nat.succ_pos i)
      have hn : attempts wo (k + 1) n = (i + 1, some e) := by
        apply ih (k + 1) i (by omega)
        · intro j hj
          have := hok (j + 1) (Nat.succ_lt_succ hj)
          rwa [show k + (j + 1) = k + 1 + j by omega] at this
        · rwa [show k + (i + 1) = k + 1 + i by omega] at hfail
      simp [attempts, h0, hn]

/-- What `sendAll` leaves behind and returns, in closed form. -/
theorem sendAll_spec (mk : String → WsEvent) (c : WsClient) (chs : List String) :
    (sendAll mk c chs).1 =
      { c with
        written := c.written
          ++ (chs.take (attempts c.writeOutcome c.written.length chs.length).1).map mk,
        sendLock := if chs = [] then c.sendLock else false } ∧
    (sendAll mk c chs).2 =
      (attempts c.writeOutcome c.written.length chs.length).2.map
        (fun e => GoError.wrap "c.sendEvent" (GoError.wrap "c.ws.WriteJSON" e)) := by
  induction chs generalizing c with
  | nil => simp [sendAll, attempts]
  | cons ch rest ih =>
    simp only [sendAll, sendEvent, attempts, List.length_cons]
    cases h : c.writeOutcome c.written.length with
    | some e => simp
    | none =>
      simp only []
      have := ih { c with sendLock := false, written := c.written ++ [mk ch] }
      simp only [List.length_append, List.length_singleton] at this
      obtain ⟨h1, h2⟩ := this
      refine ⟨?_, ?_⟩
      · rw [h1]; cases rest <;> simp
      · rw [h2]

theorem GoError.reaches_self (e : GoError) : e.reaches e = true := by
  cases e <;> simp [GoError.reaches]

/-- C2. When every transport write succeeds, `Subscribe` hands the transport
one envelope per channel name, in the order of the list (none for the empty
list), each with event `bts:subscribe`, an empty channel field and the
one-entry payload that maps `channel` to the name, and it returns nil. -/
theorem Subscribe_sends_one_envelope_per_channel (c : WsClient) (channels : List String)
    (h : ∀ k, c.writeOutcome k = none) :
    (Subscribe c channels).2 = none ∧
    (Subscribe c channels).1.written = c.written ++ channels.map (fun name =>
      ({ Event := "bts:subscribe", Channel := "",
         Data := JSON.obj [("channel", JSON.str name)] } : WsEvent)) ∧
    (Subscribe c channels).1.written.length = c.written.length + channels.length := by
  have hs := sendAll_spec subscribeEvent c channels
  rw [attempts_all_ok c.writeOutcome c.written.length channels.length (fun j _ => h _)] at hs
  rw [Subscribe_eq_sendAll]
  obtain ⟨h1, h2⟩ := hs
  refine ⟨by simpa using h2, ?_, ?_⟩
  · rw [h1]; simp [subscribeEvent]
  · rw [h1]; simp

/-- C2 at the channels `A`, `B` on a fresh client whose writes all succeed. -/
theorem Subscribe_sends_one_envelope_per_channel_witness :
    (∀ k, (WsClient.fresh (fun _ => none)).writeOutcome k = none) ∧
    (Subscribe (WsClient.fresh (fun _ => none)) ["A", "B"]).2 = none ∧
    (Subscribe (WsClient.fresh (fun _ => none)) ["A", "B"]).1.written =
      (WsClient.fresh (fun _ => none)).written ++ ["A", "B"].map (fun name =>
        ({ Event := "bts:subscribe", Channel := "",
           Data := JSON.obj [("channel", JSON.str name)] } : WsEvent)) ∧
    (Subscribe (WsClient.fresh (fun _ => none)) ["A", "B"]).1.written.length =
      (WsClient.fresh (fun _ => none)).written.length + ["A", "B"].length :=
  ⟨fun _ => rfl,
    Subscribe_sends_one_envelope_per_channel (WsClient.fresh (fun _ => none)) ["A", "B"]
      (fun _ => rfl)⟩

/-- C3. If the writes for the channels before index `i` succeed and the write
for channel `i` fails with the transport error `e`, `Subscribe` attempts the
writes for channels `0..i` and no other, and returns a non-nil error from
which `e` is reached by unwrapping (twice: `c.sendEvent` wraps
`c.ws.WriteJSON`, which wraps `e`). -/
theorem Subscribe_aborts_on_first_failure (c : WsClient) (channels : List String) (i : Nat)
    (e : GoError) (hi : i < channels.length)
    (hok : ∀ j, j < i → c.writeOutcome (c.written.length + j) = none)
    (hfail : c.writeOutcome (c.written.length + i) = some e) :
    (Subscribe c channels).1.written = c.written ++ (channels.take (i + 1)).map subscribeEvent ∧
    (Subscribe c channels).1.written.length = c.written.length + (i + 1) ∧
    (Subscribe c channels).2
      = some (GoError.wrap "c.sendEvent" (GoError.wrap "c.ws.WriteJSON" e)) ∧
    ∃ err, (Subscribe c channels).2 = some err ∧ err.reaches e = true ∧
      err.Unwrap.bind GoError.Unwrap = some e := by
  have hs := sendAll_spec subscribeEvent c channels
  rw [attempts_first_failure c.writeOutcome c.written.length channels.length i e hi hok hfail] at hs
  rw [Subscribe_eq_sendAll]
  obtain ⟨h1, h2⟩ := hs
  have h2' : (sendAll subscribeEvent c channels).2
      = some (GoError.wrap "c.sendEvent" (GoError.wrap "c.ws.WriteJSON" e)) := by simpa using h2
  refine ⟨by rw [h1], ?_, h2', _, h2', ?_, ?_⟩
  · rw [h1]; simp; omega
  · simp [GoError.reaches, GoError.reaches_self]
  · simp [GoError.Unwrap]

/-- C3 at the channels `A`, `B`, `C` when the second write fails with
`broken pipe`: two writes are attempted and the error wraps `broken pipe`. -/
theorem Subscribe_aborts_on_first_failure_witness :
    (Subscribe (WsClient.fresh (fun k => if k = 1 then some (GoError.base "broken pipe") else none))
        ["A", "B", "C"]).1.written
      = [subscribeEvent "A", subscribeEvent "B"] ∧
    (Subscribe (WsClient.fresh (fun k => if k = 1 then some (GoError.base "broken pipe") else none))
        ["A", "B", "C"]).2
      = some (GoError.wrap "c.sendEvent"
          (GoError.wrap "c.ws.WriteJSON" (GoError.base "broken pipe"))) :=
  have h := Subscribe_aborts_on_first_failure
    (WsClient.fresh (fun k => if k = 1 then some (GoError.base "broken pipe") else none))
    ["A", "B", "C"] 1 (GoError.base "broken pipe") (by decide)
    (fun j hj => by
      have : j = 0 := by omega
      subst this
      rfl)
    rfl
  ⟨h.1, h.2.2.1⟩

/-- C4. `IsReconnectRequest` is true exactly when the event field of the
envelope is `bts:request_reconnect`, whatever the channel, the payload and the
client; in particular it is false for the empty event and for
`bts:subscribe`. -/
theorem IsReconnectRequest_iff_event :
    (∀ (c : WsClient) (event : WsEvent),
      IsReconnectRequest c event = true ↔ event.Event = "bts:request_reconnect") ∧
    (∀ (c c1 : WsClient) (event event1 : WsEvent),
      event.Event = event1.Event → IsReconnectRequest c event = IsReconnectRequest c1 event1) ∧
    (∀ (c : WsClient) (channel : String) (data : JSON),
      IsReconnectRequest c { Event := "", Channel := channel, Data := data } = false) ∧
    (∀ (c : WsClient) (channel : String) (data : JSON),
      IsReconnectRequest c { Event := "bts:subscribe", Channel := channel, Data := data }
        = false) := by
  refine ⟨?_, ?_, ?_, ?_⟩
  · intro c event; simp [IsReconnectRequest]
  · intro c c1 event event1 h; simp [IsReconnectRequest, h]
  · intro c channel data; simp [IsReconnectRequest]
  · intro c channel data; simp [IsReconnectRequest]

/-- C9. For every list of channel names and every pattern of write outcomes,
`Unsubscribe` returns what `Subscribe` returns and attempts the same number
`n` of writes, for the same channels in the same order; the envelope it writes
for a channel is the one `Subscribe` writes with the event replaced by
`bts:unsubscribe`. -/
theorem Unsubscribe_mirrors_Subscribe (c : WsClient) (channels : List String) :
    (Unsubscribe c channels).2 = (Subscribe c channels).2 ∧
    (∃ n, n ≤ channels.length ∧
      (Subscribe c channels).1.written = c.written ++ (channels.take n).map subscribeEvent ∧
      (Unsubscribe c channels).1.written
        = c.written ++ (channels.take n).map (fun name =>
            { subscribeEvent name with Event := "bts:unsubscribe" })) ∧
    (Unsubscribe c channels).1.written.length = (Subscribe c channels).1.written.length ∧
    (∀ name, (subscribeEvent name).Event = "bts:subscribe") := by
  have hs := sendAll_spec subscribeEvent c channels
  have hu := sendAll_spec unsubscribeEvent c channels
  rw [Subscribe_eq_sendAll, Unsubscribe_eq_sendAll]
  refine ⟨by rw [hs.2, hu.2], ⟨_, attempts_le c.writeOutcome c.written.length channels.length,
    by rw [hs.1], by rw [hu.1]; rfl⟩, by rw [hs.1, hu.1]; simp, fun _ => rfl⟩

/-- C8 (as amended). The JSON object written for a channel name by `Subscribe`
has three members, in this order: `event` with value `bts:subscribe`,
`channel` with the empty string (the `Channel` field, which `Subscribe` leaves
empty and whose tag has no `omitempty`), and `data` with the one-entry object
that maps `channel` to the name. -/
theorem Subscribe_wire_shape (c : WsClient) (channels : List String) :
    (∃ n, n ≤ channels.length ∧
      (Subscribe c channels).1.written.map marshalWsEvent
        = c.written.map marshalWsEvent ++ (channels.take n).map (fun name =>
            JSON.obj [("event", JSON.str "bts:subscribe"), ("channel", JSON.str ""),
              ("data", JSON.obj [("channel", JSON.str name)])])) ∧
    (∀ name, (marshalWsEvent (subscribeEvent name)).keys = ["event", "channel", "data"]) := by
  have hs := sendAll_spec subscribeEvent c channels
  rw [Subscribe_eq_sendAll]
  refine ⟨⟨_, attempts_le c.writeOutcome c.written.length channels.length, ?_⟩, fun _ => rfl⟩
  rw [hs.1]
  simp only [List.map_append, List.map_map]
  rfl

/-- C8, counterexample: the object written for the channel `live_trades_btcusd`
has a top-level member `channel`, so its keys are not just `event` and
`data`. -/
theorem Subscribe_wire_has_channel_key :
    (Subscribe (WsClient.fresh (fun _ => none)) ["live_trades_btcusd"]).1.written.map
        (fun e => (marshalWsEvent e).keys) = [["event", "channel", "data"]] ∧
    (Subscribe (WsClient.fresh (fun _ => none)) ["live_trades_btcusd"]).1.written.map
        (fun e => (marshalWsEvent e).keys) ≠ [["event", "data"]] := by
  decide

/-! ## The reader goroutine -/

theorem run_nil (c : WsClient) : run c [] = c := rfl

theorem run_cons (c : WsClient) (s : Step) (steps : List Step) :
    run c (s :: steps) = run (step c s) steps := rfl

theorem run_append (c : WsClient) (xs ys : List Step) :
    run c (xs ++ ys) = run (run c xs) ys := by
  simp [run, List.foldl_append]

/-- `ReadMessage` touches nothing but the two read fields of the connection. -/
theorem ReadMessage_fst (c : WsClient) (d : Delivery) :
    (ReadMessage c d).1 = { c with readErr := (ReadMessage c d).1.readErr,
                                   readErrCount := (ReadMessage c d).1.readErrCount } := by
  unfold ReadMessage countFailedRead
  cases c.readErr with
  | some err => simp only []; split <;> rfl
  | none =>
    cases d with
    | frame body => rfl
    | failNext err => simp only []; split <;> rfl
    | failBody err => rfl

/-- `ReadMessage` does not look at the trace. -/
theorem ReadMessage_act (c : WsClient) (acts : List Action) (d : Delivery) :
    ReadMessage (c.act acts) d = ((ReadMessage c d).1.act acts, (ReadMessage c d).2) := by
  unfold ReadMessage countFailedRead WsClient.act
  cases h : c.readErr with
  | some err => simp only [h]; split <;> rfl
  | none =>
    cases d with
    | frame body => simp only [h]
    | failNext err => simp only [h]; split <;> rfl
    | failBody err => simp only [h]

/-- A pass with no stop signal pending, in terms of what `ReadMessage` does. -/
theorem readerIter_read (c : WsClient) (d : Delivery) (hd : c.done = []) :
    readerIter c d =
      match (ReadMessage c d).2 with
      | .panicked =>
        { (ReadMessage c d).1 with
          trace := c.trace ++ [Action.SetReadDeadline, Action.ReadMessagePanics, Action.wsClose],
          exited := true, panicked := true }
      | .returned (.error err) =>
        { (ReadMessage c d).1 with
          Errors := c.Errors ++ [err],
          trace := c.trace ++
            [Action.SetReadDeadline, Action.ReadMessage (.error err), Action.sendErrors err] }
      | .returned (.ok message) =>
        { (ReadMessage c d).1 with
          Stream := c.Stream ++ (decoded message).toList,
          Errors := c.Errors ++ (decodeError message).toList,
          trace := c.trace ++ frameActions message } := by
  have hdone : (c.act [Action.SetReadDeadline]).done = [] := hd
  unfold readerIter
  simp only [hdone, ReadMessage_act]
  have hfst := ReadMessage_fst c d
  generalize ReadMessage c d = p at hfst
  obtain ⟨c2, o⟩ := p
  simp only at hfst
  cases o with
  | panicked => simp only [WsClient.act]; rw [hfst]; simp
  | returned r =>
    cases r with
    | error err => simp only [WsClient.act]; rw [hfst]; simp
    | ok message =>
      simp only [WsClient.act, decoded, decodeError, frameActions]
      rw [hfst]
      cases jsonUnmarshal message <;> simp

theorem ReadMessage_frame (c : WsClient) (body : String) (hr : c.readErr = none) :
    ReadMessage c (Delivery.frame body) = (c, ReadOutcome.returned (.ok body)) := by
  simp [ReadMessage, hr]

/-- One pass that reads a frame, on a running client whose connection has not
failed, with no stop signal pending. -/
theorem readerIter_frame (c : WsClient) (frame : String) (hd : c.done = [])
    (hr : c.readErr = none) :
    readerIter c (Delivery.frame frame) =
      { c with
        Stream := c.Stream ++ (decoded frame).toList,
        Errors := c.Errors ++ (decodeError frame).toList,
        trace := c.trace ++ frameActions frame } := by
  rw [readerIter_read c _ hd, ReadMessage_frame c frame hr]

theorem run_deliver (c : WsClient) (frames : List String) (hd : c.done = [])
    (hx : c.exited = false) (hr : c.readErr = none) :
    run c (deliver frames) =
      { c with
        Stream := c.Stream ++ frames.filterMap decoded,
        Errors := c.Errors ++ frames.filterMap decodeError,
        trace := c.trace ++ frames.flatMap frameActions } := by
  induction frames generalizing c with
  | nil => simp [deliver, run]
  | cons f rest ih =>
    have hstep : step c (Step.iter (Delivery.frame f)) = readerIter c (Delivery.frame f) := by
      simp [step, hx]
    simp only [deliver, List.map_cons, run_cons, hstep]
    rw [readerIter_frame c f hd hr]
    have := ih { c with
        Stream := c.Stream ++ (decoded f).toList,
        Errors := c.Errors ++ (decodeError f).toList,
        trace := c.trace ++ frameActions f } hd hx hr
    simp only [deliver] at this
    rw [this]
    cases h1 : decoded f <;> cases h2 : decodeError f <;>
      simp [List.filterMap_cons, h1, h2, List.flatMap_cons, List.append_assoc]

/-- C1. Against a transport that delivers the frames `frames` one after the
other, with no stop signal pending, the envelopes put on `Stream` are the
decodings of the frames that decode, in the order the frames were received;
the errors put on `Errors` are the decode errors of the frames that do not
decode, one each, in that order; each frame costs one pass of the loop, which
ends in exactly one send: on `Stream` if the frame decodes, on `Errors` if
not. -/
theorem reader_delivers_frames_in_order (c : WsClient) (frames : List String)
    (hd : c.done = []) (hx : c.exited = false) (hr : c.readErr = none) :
    (run c (deliver frames)).Stream
      = c.Stream ++ frames.filterMap (fun f => (jsonUnmarshal f).toOption) ∧
    (run c (deliver frames)).Errors
      = c.Errors ++ frames.filterMap (fun f =>
          match jsonUnmarshal f with
          | .ok _ => none
          | .error err => some err) ∧
    (run c (deliver frames)).trace
      = c.trace ++ frames.flatMap (fun f =>
          [Action.SetReadDeadline, Action.ReadMessage (.ok f),
            match jsonUnmarshal f with
            | .ok e => Action.sendStream e
            | .error err => Action.sendErrors err]) ∧
    (run c (deliver frames)).exited = false := by
  rw [run_deliver c frames hd hx hr]
  refine ⟨?_, rfl, rfl, hx⟩
  show c.Stream ++ frames.filterMap decoded = _
  congr 2
  funext f
  simp only [decoded, Except.toOption]
  cases jsonUnmarshal f <;> rfl

/-- C1 at three frames on a fresh client: an object with an event, a text
that is not JSON, and the empty object. -/
theorem reader_delivers_frames_in_order_witness :
    (WsClient.fresh (fun _ => none)).done = [] ∧
    (WsClient.fresh (fun _ => none)).exited = false ∧
    (WsClient.fresh (fun _ => none)).readErr = none ∧
    (run (WsClient.fresh (fun _ => none))
        (deliver ["\x7b\x22event\x22:\x22trade\x22\x7d", "oops", "\x7b\x7d"])).Stream
      = (WsClient.fresh (fun _ => none)).Stream
        ++ ["\x7b\x22event\x22:\x22trade\x22\x7d", "oops", "\x7b\x7d"].filterMap
            (fun f => (jsonUnmarshal f).toOption) :=
  ⟨rfl, rfl, rfl,
    (reader_delivers_frames_in_order (WsClient.fresh (fun _ => none))
      ["\x7b\x22event\x22:\x22trade\x22\x7d", "oops", "\x7b\x7d"] rfl rfl rfl).1⟩

/-- What `ReadMessage` does to the count of failed reads, by outcome. -/
theorem ReadMessage_count (c : WsClient) (d : Delivery) :
    ((ReadMessage c d).2 = ReadOutcome.panicked →
      (ReadMessage c d).1.readErrCount = c.readErrCount + 1 ∧
      maxReadErrCount ≤ c.readErrCount + 1) ∧
    (∀ err, (ReadMessage c d).2 = ReadOutcome.returned (.error err) →
      (ReadMessage c d).1.readErrCount ≤ c.readErrCount + 1 ∧
      (ReadMessage c d).1.readErr = some err) ∧
    (∀ body, (ReadMessage c d).2 = ReadOutcome.returned (.ok body) →
      (ReadMessage c d).1 = c ∧ c.readErr = none ∧ d = Delivery.frame body) := by
  unfold ReadMessage countFailedRead
  cases h : c.readErr with
  | some e =>
    simp only []
    split <;> simp_all
  | none =>
    cases d with
    | frame body => simp [h]
    | failNext e =>
      simp only []
      split <;> simp_all
    | failBody e => simp

theorem TraceShape_fresh (wo : Nat → Option GoError) : TraceShape (WsClient.fresh wo) := by
  refine ⟨?_, ?_, ?_⟩
  · intro _; simp [WsClient.fresh]
  · intro h; simp [WsClient.fresh] at h
  · simp [WsClient.fresh]

theorem TraceShape_step (c : WsClient) (s : Step) (h : TraceShape c) : TraceShape (step c s) := by
  cases s with
  | Close =>
    simp only [step, Close]
    split
    · exact h
    · split
      · exact h
      · exact h
  | iter d =>
    simp only [step]
    cases hx : c.exited with
    | true => simpa using h
    | false =>
      obtain ⟨hp, hr, hpn, hc⟩ := h.1 hx
      have hcnt := h.2.2
      rw [hp] at hcnt
      simp only [Bool.false_eq_true, if_false, Nat.add_zero] at hcnt ⊢
      cases hd : c.done with
      | cons b rest =>
        refine ⟨?_, ?_, ?_⟩
        · intro h1; simp [readerIter, WsClient.act, hd] at h1
        · intro _
          refine ⟨c.trace ++ [Action.SetReadDeadline], Or.inl ⟨?_, ?_⟩, ?_, ?_, ?_⟩
          · simp [readerIter, WsClient.act, hd]
          · simp [readerIter, WsClient.act, hd, hp]
          · simp [hr]
          · simp [hpn]
          · simp [hc]
        · simp [readerIter, WsClient.act, hd, hp, hcnt]
      | nil =>
        rw [readerIter_read c d hd]
        have hfst := ReadMessage_fst c d
        obtain ⟨k1, k2, k3⟩ := ReadMessage_count c d
        cases ho : (ReadMessage c d).2 with
        | panicked =>
          obtain ⟨e1, e2⟩ := k1 ho
          refine ⟨?_, ?_, ?_⟩
          · intro h1; simp at h1
          · intro _
            refine ⟨c.trace ++ [Action.SetReadDeadline], Or.inr ⟨?_, rfl, ?_⟩, ?_, ?_, ?_⟩
            · simp
            · simp only []; rw [e1]; exact e2
            · simp [hr]
            · simp [hpn]
            · simp [hc]
          · simp only []
            rw [e1, hfst]
            simp
            omega
        | returned r =>
          cases r with
          | error err =>
            obtain ⟨e1, _⟩ := k2 err ho
            refine ⟨?_, ?_, ?_⟩
            · intro _
              simp only []
              rw [hfst]
              simp [hp, hr, hpn, hc]
            · intro h1
              simp only [] at h1
              rw [hfst] at h1
              simp [hx] at h1
            · simp only []
              have : (ReadMessage c d).1.panicked = false := by rw [hfst]; exact hp
              rw [this]
              simp
              omega
          | ok body =>
            obtain ⟨e1, _, _⟩ := k3 body ho
            simp only []
            rw [e1]
            refine ⟨?_, ?_, ?_⟩
            · intro _
              simp only [frameActions]
              cases jsonUnmarshal body <;> simp [hp, hr, hpn, hc]
            · intro h1; simp [hx] at h1
            · simp only [hp]
              simp
              omega

theorem TraceShape_run (c : WsClient) (steps : List Step) (h : TraceShape c) :
    TraceShape (run c steps) := by
  induction steps generalizing c with
  | nil => exact h
  | cons s rest ih => exact ih (step c s) (TraceShape_step c s h)

/-- Once the goroutine has ended, no step changes what it has done. -/
theorem run_exited (c : WsClient) (steps : List Step) (hx : c.exited = true) :
    (run c steps).trace = c.trace ∧ (run c steps).Stream = c.Stream ∧
    (run c steps).Errors = c.Errors ∧ (run c steps).exited = true := by
  induction steps generalizing c with
  | nil => exact ⟨rfl, rfl, rfl, hx⟩
  | cons s rest ih =>
    rw [run_cons]
    cases s with
    | Close =>
      have h1 : (step c Step.Close).exited = true := by
        simp only [step, Close]; split
        · exact hx
        · split <;> simp [hx]
      have h2 : (step c Step.Close).trace = c.trace ∧ (step c Step.Close).Stream = c.Stream ∧
          (step c Step.Close).Errors = c.Errors := by
        simp only [step, Close]; split
        · exact ⟨rfl, rfl, rfl⟩
        · split <;> simp
      obtain ⟨a, b, d, e⟩ := ih _ h1
      exact ⟨a.trans h2.1, b.trans h2.2.1, d.trans h2.2.2, e⟩
    | iter r =>
      have h1 : step c (Step.iter r) = c := by simp [step, hx]
      rw [h1]
      exact ih c hx

/-- After `Close` has been called, the next pass of the loop observes the stop
signal and the goroutine returns, unless it has ended before. -/
theorem exits_after_Close (c : WsClient) (d : Delivery) (hpx : c.panicked = true → c.exited = true) :
    (run c [Step.Close, Step.iter d]).exited = true := by
  simp only [run_cons, run_nil]
  cases hp : c.panicked with
  | true =>
    have hx := hpx hp
    simp [step, hp, hx]
  | false =>
    have hs : step c Step.Close = Close c := by simp [step, hp]
    rw [hs]
    have hx : (Close c).exited = c.exited := by
      simp only [Close]; split <;> rfl
    have hd : (Close c).done ≠ [] := by
      simp only [Close]
      split
      · simp
      · rename_i h
        intro h0
        simp [h0] at h
    cases he : c.exited with
    | true =>
      rw [he] at hx
      simp [step, hx]
    | false =>
      rw [he] at hx
      simp only [step, hx, Bool.false_eq_true, if_false]
      cases hd0 : (Close c).done with
      | nil => exact absurd hd0 hd
      | cons b rest => simp [readerIter, WsClient.act, hd0]

/-- On a failed connection, with no stop signal pending, `n` further passes
that stay below the panic threshold put the kept error on `Errors` `n` times
and leave the goroutine running. -/
theorem run_failed_reads (n : Nat) (d : Delivery) (e : GoError) :
    ∀ c : WsClient, c.readErr = some e → c.done = [] → c.exited = false →
      c.readErrCount + n < maxReadErrCount →
      (run c (List.replicate n (Step.iter d))).Errors = c.Errors ++ List.replicate n e ∧
      (run c (List.replicate n (Step.iter d))).Stream = c.Stream ∧
      (run c (List.replicate n (Step.iter d))).readErrCount = c.readErrCount + n ∧
      (run c (List.replicate n (Step.iter d))).readErr = some e ∧
      (run c (List.replicate n (Step.iter d))).done = [] ∧
      (run c (List.replicate n (Step.iter d))).exited = false := by
  induction n with
  | zero => intro c hr hd hx _; exact ⟨by simp [run], rfl, rfl, hr, hd, hx⟩
  | succ n ih =>
    intro c hr hd hx hlt
    have hrm : ReadMessage c d = ({ c with readErrCount := c.readErrCount + 1 },
        ReadOutcome.returned (.error e)) := by
      unfold ReadMessage countFailedRead
      simp only [hr]
      rw [if_neg]
      simp only [not_le]
      omega
    have hstep : step c (Step.iter d) = { c with
        readErrCount := c.readErrCount + 1,
        Errors := c.Errors ++ [e],
        trace := c.trace ++
          [Action.SetReadDeadline, Action.ReadMessage (.error e), Action.sendErrors e] } := by
      have h0 : step c (Step.iter d) = readerIter c d := by simp [step, hx]
      rw [h0, readerIter_read c d hd, hrm]
    simp only [List.replicate_succ, run_cons, hstep]
    obtain ⟨a1, a2, a3, a4, a5, a6⟩ := ih { c with
        readErrCount := c.readErrCount + 1,
        Errors := c.Errors ++ [e],
        trace := c.trace ++
          [Action.SetReadDeadline, Action.ReadMessage (.error e), Action.sendErrors e] }
      hr hd hx (by simp only []; omega)
    refine ⟨?_, a2, ?_, a4, a5, a6⟩
    · rw [a1]; simp
    · rw [a3]; simp only []; omega

/-- The pass that makes the read at which the count of failed reads reaches
the threshold: `ReadMessage` panics, the goroutine ends with the connection
closed, and nothing is put on `Errors`. -/
theorem step_panics (c : WsClient) (d : Delivery) (e : GoError) (hr : c.readErr = some e)
    (hd : c.done = []) (hx : c.exited = false) (hc : maxReadErrCount ≤ c.readErrCount + 1) :
    (step c (Step.iter d)).exited = true ∧ (step c (Step.iter d)).panicked = true ∧
    (step c (Step.iter d)).Errors = c.Errors ∧ (step c (Step.iter d)).Stream = c.Stream ∧
    (step c (Step.iter d)).done = [] ∧
    (step c (Step.iter d)).trace
      = c.trace ++ [Action.SetReadDeadline, Action.ReadMessagePanics, Action.wsClose] := by
  have hrm : ReadMessage c d = ({ c with readErrCount := c.readErrCount + 1 },
      ReadOutcome.panicked) := by
    unfold ReadMessage countFailedRead
    simp only [hr]
    rw [if_pos hc]
  have h0 : step c (Step.iter d) = readerIter c d := by simp [step, hx]
  rw [h0, readerIter_read c d hd, hrm]
  exact ⟨rfl, rfl, rfl, rfl, hd, rfl⟩

/-- C5 (as amended). A pass of the loop whose read fails with `e`, with no
stop signal pending, sets the deadline, reads, and puts exactly `e` on
`Errors`: nothing goes on `Stream`, the connection is not closed, and the
goroutine has not ended. Its next pass, the stop signal still not pending,
sets the deadline and calls `ReadMessage` again. A pass after which the
goroutine has ended is one that found a value on `c.done`, or one in which
`ReadMessage` panicked, which it does only when the connection has counted
`maxReadErrCount - 1` failed reads before. -/
theorem reader_continues_after_read_error (c : WsClient) (d : Delivery) (e : GoError)
    (hd : c.done = []) (hx : c.exited = false)
    (hfail : (ReadMessage c d).2 = ReadOutcome.returned (.error e)) :
    (step c (Step.iter d)).Errors = c.Errors ++ [e] ∧
    (step c (Step.iter d)).Stream = c.Stream ∧
    (step c (Step.iter d)).trace = c.trace ++
      [Action.SetReadDeadline, Action.ReadMessage (.error e), Action.sendErrors e] ∧
    (step c (Step.iter d)).exited = false ∧
    (step c (Step.iter d)).done = [] ∧
    (∀ d1 : Delivery, ∃ a tail,
      (run c [Step.iter d, Step.iter d1]).trace
        = (step c (Step.iter d)).trace ++ [Action.SetReadDeadline, a] ++ tail ∧
      a.isRead = true) ∧
    (∀ (c0 : WsClient) (s : Step), c0.exited = false → (step c0 s).exited = true →
      ∃ d0, s = Step.iter d0 ∧
        ((c0.done ≠ [] ∧
            ∃ front, (step c0 s).trace = front ++ [Action.recvDone, Action.wsClose]) ∨
          (c0.done = [] ∧ (ReadMessage c0 d0).2 = ReadOutcome.panicked ∧
            maxReadErrCount ≤ c0.readErrCount + 1 ∧
            ∃ front, (step c0 s).trace = front ++ [Action.ReadMessagePanics, Action.wsClose]))) := by
  have h1 : step c (Step.iter d) = readerIter c d := by simp [step, hx]
  have h2 := readerIter_read c d hd
  rw [hfail] at h2
  simp only [] at h2
  have hfst := ReadMessage_fst c d
  have hstep : step c (Step.iter d) = { c with
      readErr := (ReadMessage c d).1.readErr,
      readErrCount := (ReadMessage c d).1.readErrCount,
      Errors := c.Errors ++ [e],
      trace := c.trace ++
        [Action.SetReadDeadline, Action.ReadMessage (.error e), Action.sendErrors e] } := by
    rw [h1, h2, hfst]
  refine ⟨by rw [hstep], by rw [hstep], by rw [hstep], by rw [hstep]; exact hx,
    by rw [hstep]; exact hd, ?_, ?_⟩
  · intro d1
    simp only [run_cons, run_nil]
    generalize step c (Step.iter d) = c1 at hstep
    have hx1 : c1.exited = false := by rw [hstep]; exact hx
    have hd1 : c1.done = [] := by rw [hstep]; exact hd
    have hs1 : step c1 (Step.iter d1) = readerIter c1 d1 := by simp [step, hx1]
    rw [hs1, readerIter_read c1 d1 hd1]
    cases ho : (ReadMessage c1 d1).2 with
    | panicked => exact ⟨Action.ReadMessagePanics, [Action.wsClose], by simp, rfl⟩
    | returned r =>
      cases r with
      | error err =>
        exact ⟨Action.ReadMessage (.error err), [Action.sendErrors err], by simp, rfl⟩
      | ok body =>
        simp only [frameActions]
        exact ⟨Action.ReadMessage (.ok body), _, by simp; rfl, rfl⟩
  · intro c0 s h0 hex
    cases s with
    | Close =>
      exfalso
      simp only [step, Close] at hex
      split at hex
      · simp [h0] at hex
      · split at hex <;> simp [h0] at hex
    | iter d0 =>
      refine ⟨d0, rfl, ?_⟩
      simp only [step, h0, Bool.false_eq_true, if_false] at hex ⊢
      cases hd0 : c0.done with
      | cons b rest =>
        left
        exact ⟨by simp, c0.trace ++ [Action.SetReadDeadline], by simp [readerIter, WsClient.act, hd0]⟩
      | nil =>
        right
        rw [readerIter_read c0 d0 hd0] at hex ⊢
        have hf0 := ReadMessage_fst c0 d0
        cases ho : (ReadMessage c0 d0).2 with
        | panicked =>
          exact ⟨rfl, rfl, ((ReadMessage_count c0 d0).1 ho).2,
            c0.trace ++ [Action.SetReadDeadline], by simp⟩
        | returned r =>
          exfalso
          rw [ho] at hex
          cases r with
          | error err =>
            simp only [] at hex
            rw [hf0] at hex
            simp [h0] at hex
          | ok body =>
            simp only [] at hex
            rw [hf0] at hex
            simp [h0] at hex

/-- C5 (as amended) at a fresh client whose first read fails with
`i/o timeout`. -/
theorem reader_continues_after_read_error_witness :
    (WsClient.fresh (fun _ => none)).done = [] ∧
    (WsClient.fresh (fun _ => none)).exited = false ∧
    (ReadMessage (WsClient.fresh (fun _ => none))
        (Delivery.failNext (GoError.base "i/o timeout"))).2
      = ReadOutcome.returned (.error (GoError.base "i/o timeout")) ∧
    (step (WsClient.fresh (fun _ => none))
        (Step.iter (Delivery.failNext (GoError.base "i/o timeout")))).Errors
      = (WsClient.fresh (fun _ => none)).Errors ++ [GoError.base "i/o timeout"] ∧
    (step (WsClient.fresh (fun _ => none))
        (Step.iter (Delivery.failNext (GoError.base "i/o timeout")))).exited = false :=
  have h := reader_continues_after_read_error (WsClient.fresh (fun _ => none))
    (Delivery.failNext (GoError.base "i/o timeout")) (GoError.base "i/o timeout") rfl rfl rfl
  ⟨rfl, rfl, rfl, h.1, h.2.2.2.1⟩

/-- C5, counterexample: the transport fails 1000 reads in a row with
`i/o timeout` and `Close` is never called. The first 999 reads return the
error, which the loop puts on `Errors`; the 1000th panics, and the goroutine
has ended although no stop signal was sent or observed. -/
theorem reader_exits_without_stop_signal :
    (run (WsClient.fresh (fun _ => none))
      (List.replicate 1000 (Step.iter (Delivery.failNext (GoError.base "i/o timeout"))))).exited
      = true ∧
    (run (WsClient.fresh (fun _ => none))
      (List.replicate 1000 (Step.iter (Delivery.failNext (GoError.base "i/o timeout"))))).Errors
      = List.replicate 999 (GoError.base "i/o timeout") ∧
    (run (WsClient.fresh (fun _ => none))
      (List.replicate 1000 (Step.iter (Delivery.failNext (GoError.base "i/o timeout"))))).done
      = [] := by
  have hsplit : List.replicate 1000 (Step.iter (Delivery.failNext (GoError.base "i/o timeout")))
      = [Step.iter (Delivery.failNext (GoError.base "i/o timeout"))]
        ++ List.replicate 998 (Step.iter (Delivery.failNext (GoError.base "i/o timeout")))
        ++ [Step.iter (Delivery.failNext (GoError.base "i/o timeout"))] := by
    rw [show (1000 : Nat) = 1 + 998 + 1 from rfl, List.replicate_add, List.replicate_add]
    rfl
  rw [hsplit, run_append, run_append]
  generalize hc1 : run (WsClient.fresh (fun _ => none))
    [Step.iter (Delivery.failNext (GoError.base "i/o timeout"))] = c1
  have f1 : c1.readErr = some (GoError.base "i/o timeout") ∧ c1.done = [] ∧ c1.exited = false ∧
      c1.readErrCount = 1 ∧ c1.Errors = [GoError.base "i/o timeout"] := by
    rw [← hc1]; exact ⟨rfl, rfl, rfl, rfl, rfl⟩
  obtain ⟨a1, _, a3, a4, a5, a6⟩ := run_failed_reads 998
    (Delivery.failNext (GoError.base "i/o timeout")) (GoError.base "i/o timeout") c1
    f1.1 f1.2.1 f1.2.2.1 (by rw [f1.2.2.2.1]; decide)
  generalize run c1 (List.replicate 998
    (Step.iter (Delivery.failNext (GoError.base "i/o timeout")))) = c2 at a1 a3 a4 a5 a6
  obtain ⟨b1, _, b3, _, b5, _⟩ := step_panics c2
    (Delivery.failNext (GoError.base "i/o timeout")) (GoError.base "i/o timeout") a4 a5 a6
    (by rw [a3, f1.2.2.2.1]; decide)
  simp only [run_cons, run_nil]
  refine ⟨b1, ?_, b5⟩
  rw [b3, a1, f1.2.2.2.2]
  rw [show (999 : Nat) = 1 + 998 from rfl, List.replicate_add]
  rfl

theorem filter_isClose_front (front : List Action) (h : Action.wsClose ∉ front) :
    front.filter Action.isClose = [] := by
  rw [List.filter_eq_nil_iff]
  intro a ha hcl
  cases a <;> simp [Action.isClose] at hcl
  exact h ha

theorem filter_isRecvDone_front (front : List Action) (h : Action.recvDone ∉ front) :
    front.filter Action.isRecvDone = [] := by
  rw [List.filter_eq_nil_iff]
  intro a ha hcl
  cases a <;> simp [Action.isRecvDone] at hcl
  exact h ha

/-- C6 (as amended). In every run of a client from its creation: as long as
the reader goroutine has not ended, the transport's `Close` has not been
invoked. The goroutine ends in a pass that observes the stop signal, or in a
pass in which `ReadMessage` panics, which takes `maxReadErrCount - 1` read
errors put on `Errors` before; either way the trace of the goroutine ends with
that event followed by the transport's `Close`, which it contains exactly
once, and whatever happens afterwards adds no action (so no further read) and
puts nothing more on `Stream` or `Errors`. The pass that follows a call of
`Close` is one after which the goroutine has ended. -/
theorem reader_shutdown (wo : Nat → Option GoError) (steps : List Step) :
    ((run (WsClient.fresh wo) steps).exited = false →
      Action.recvDone ∉ (run (WsClient.fresh wo) steps).trace ∧
      Action.ReadMessagePanics ∉ (run (WsClient.fresh wo) steps).trace ∧
      Action.wsClose ∉ (run (WsClient.fresh wo) steps).trace) ∧
    ((run (WsClient.fresh wo) steps).exited = true →
      (∃ front,
        ((run (WsClient.fresh wo) steps).trace = front ++ [Action.recvDone, Action.wsClose] ∨
          ((run (WsClient.fresh wo) steps).trace
              = front ++ [Action.ReadMessagePanics, Action.wsClose] ∧
            maxReadErrCount - 1 ≤ (run (WsClient.fresh wo) steps).Errors.length)) ∧
        Action.recvDone ∉ front ∧ Action.ReadMessagePanics ∉ front ∧
        Action.wsClose ∉ front) ∧
      ((run (WsClient.fresh wo) steps).trace.filter Action.isClose).length = 1 ∧
      ∀ more : List Step,
        (run (WsClient.fresh wo) (steps ++ more)).trace = (run (WsClient.fresh wo) steps).trace ∧
        (run (WsClient.fresh wo) (steps ++ more)).Stream
          = (run (WsClient.fresh wo) steps).Stream ∧
        (run (WsClient.fresh wo) (steps ++ more)).Errors
          = (run (WsClient.fresh wo) steps).Errors) ∧
    (∀ d : Delivery,
      (run (WsClient.fresh wo) (steps ++ [Step.Close, Step.iter d])).exited = true) := by
  have hgen : ∀ more, run (WsClient.fresh wo) (steps ++ more)
      = run (run (WsClient.fresh wo) steps) more := fun more => run_append _ _ _
  refine ⟨?_, ?_, ?_⟩
  · intro hx
    have := TraceShape_run (WsClient.fresh wo) steps (TraceShape_fresh wo)
    exact (this.1 hx).2
  · intro hx
    have hsh := TraceShape_run (WsClient.fresh wo) steps (TraceShape_fresh wo)
    obtain ⟨front, hor, f1, f2, f3⟩ := hsh.2.1 hx
    have hcnt := hsh.2.2
    refine ⟨⟨front, ?_, f1, f2, f3⟩, ?_, ?_⟩
    · rcases hor with ⟨ht, _⟩ | ⟨ht, hp, hm⟩
      · exact Or.inl ht
      · refine Or.inr ⟨ht, ?_⟩
        rw [hp] at hcnt
        simp only [if_true, maxReadErrCount] at hcnt hm ⊢
        omega
    · have ht : (run (WsClient.fresh wo) steps).trace = front ++ [Action.recvDone, Action.wsClose] ∨
          (run (WsClient.fresh wo) steps).trace
            = front ++ [Action.ReadMessagePanics, Action.wsClose] := by
        rcases hor with ⟨ht, _⟩ | ⟨ht, _, _⟩
        · exact Or.inl ht
        · exact Or.inr ht
      rcases ht with ht | ht <;> rw [ht] <;>
        simp [List.filter_append, filter_isClose_front front f3, Action.isClose, List.filter_cons]
    · intro more
      rw [hgen]
      obtain ⟨a, b, d, _⟩ := run_exited (run (WsClient.fresh wo) steps) more hx
      exact ⟨a, b, d⟩
  · intro d
    rw [hgen]
    have hsh := TraceShape_run (WsClient.fresh wo) steps (TraceShape_fresh wo)
    apply exits_after_Close
    intro hp
    cases hx : (run (WsClient.fresh wo) steps).exited with
    | true => rfl
    | false =>
      have := (hsh.1 hx).1
      rw [hp] at this
      exact absurd this (by simp)

/-- C6, counterexample: the first read fails while the body of a frame is
being read, the loop reads on, and `Close` is never called. The read that
brings the count of failed reads to 1000 panics: the goroutine ends and the
transport's `Close` is invoked once, although the stop signal was never sent
and the trace holds no receipt of it. -/
theorem transport_closed_without_stop_signal :
    (run (WsClient.fresh (fun _ => none))
      (Step.iter (Delivery.failBody (GoError.base "unexpected EOF")) ::
        List.replicate 1000 (Step.iter (Delivery.frame "\x7b\x7d")))).exited = true ∧
    ((run (WsClient.fresh (fun _ => none))
      (Step.iter (Delivery.failBody (GoError.base "unexpected EOF")) ::
        List.replicate 1000 (Step.iter (Delivery.frame "\x7b\x7d")))).trace.filter
          Action.isClose).length = 1 ∧
    ((run (WsClient.fresh (fun _ => none))
      (Step.iter (Delivery.failBody (GoError.base "unexpected EOF")) ::
        List.replicate 1000 (Step.iter (Delivery.frame "\x7b\x7d")))).trace.filter
          Action.isRecvDone).length = 0 ∧
    (run (WsClient.fresh (fun _ => none))
      (Step.iter (Delivery.failBody (GoError.base "unexpected EOF")) ::
        List.replicate 1000 (Step.iter (Delivery.frame "\x7b\x7d")))).Errors.length = 1000 := by
  have hshape := TraceShape_run (WsClient.fresh (fun _ => none))
    (Step.iter (Delivery.failBody (GoError.base "unexpected EOF")) ::
      List.replicate 1000 (Step.iter (Delivery.frame "\x7b\x7d"))) (TraceShape_fresh _)
  have hsplit : (Step.iter (Delivery.failBody (GoError.base "unexpected EOF")) ::
      List.replicate 1000 (Step.iter (Delivery.frame "\x7b\x7d")))
      = [Step.iter (Delivery.failBody (GoError.base "unexpected EOF"))]
        ++ List.replicate 999 (Step.iter (Delivery.frame "\x7b\x7d"))
        ++ [Step.iter (Delivery.frame "\x7b\x7d")] := by
    rw [show (1000 : Nat) = 999 + 1 from rfl, List.replicate_add]
    rfl
  rw [hsplit] at hshape ⊢
  rw [run_append, run_append] at hshape ⊢
  generalize hc1 : run (WsClient.fresh (fun _ => none))
    [Step.iter (Delivery.failBody (GoError.base "unexpected EOF"))] = c1 at hshape
  have f1 : c1.readErr = some (GoError.base "unexpected EOF") ∧ c1.done = [] ∧
      c1.exited = false ∧ c1.readErrCount = 0 ∧ c1.Errors = [GoError.base "unexpected EOF"] := by
    rw [← hc1]; exact ⟨rfl, rfl, rfl, rfl, rfl⟩
  obtain ⟨a1, _, a3, a4, a5, a6⟩ := run_failed_reads 999
    (Delivery.frame "\x7b\x7d") (GoError.base "unexpected EOF") c1
    f1.1 f1.2.1 f1.2.2.1 (by rw [f1.2.2.2.1]; decide)
  generalize run c1 (List.replicate 999 (Step.iter (Delivery.frame "\x7b\x7d"))) = c2
    at a1 a3 a4 a5 a6 hshape
  obtain ⟨b1, b2, b3, _, _, _⟩ := step_panics c2
    (Delivery.frame "\x7b\x7d") (GoError.base "unexpected EOF") a4 a5 a6
    (by rw [a3, f1.2.2.2.1]; decide)
  simp only [run_cons, run_nil] at hshape ⊢
  obtain ⟨front, hor, g1, _, g3⟩ := hshape.2.1 b1
  have ht : (step c2 (Step.iter (Delivery.frame "\x7b\x7d"))).trace
      = front ++ [Action.ReadMessagePanics, Action.wsClose] := by
    rcases hor with ⟨_, hp⟩ | ⟨ht, _, _⟩
    · rw [b2] at hp; exact absurd hp (by simp)
    · exact ht
  refine ⟨b1, ?_, ?_, ?_⟩
  · rw [ht]
    simp [List.filter_append, filter_isClose_front front g3, Action.isClose, List.filter_cons]
  · rw [ht]
    simp [List.filter_append, filter_isRecvDone_front front g1, Action.isRecvDone,
      List.filter_cons]
  · rw [b3, a1, f1.2.2.2.2, List.length_append, List.length_replicate]
    rfl

theorem storeString_saveError_Event (d : DecodeState) (e : GoError) :
    (d.saveError e).ev = d.ev := by
  unfold DecodeState.saveError
  cases d.saved <;> rfl

/-- Storing one member moves the `Event` field the way `eventMember` says. -/
theorem storeMember_Event (d : DecodeState) (kv : String × JSON) :
    (storeMember d kv).ev.Event =
      (match fieldOfKey kv.1, kv.2 with
        | some Field.Event, JSON.str s => s
        | _, _ => d.ev.Event) := by
  unfold storeMember
  cases hf : fieldOfKey kv.1 with
  | none => rfl
  | some f =>
    cases f with
    | Event =>
      simp only [storeString]
      cases kv.2 <;> simp [storeString_saveError_Event]
    | Channel =>
      simp only [storeString]
      cases kv.2 <;> simp [storeString_saveError_Event]
    | Data =>
      simp only []
      cases toInterface kv.2 <;> simp [storeString_saveError_Event]

theorem foldl_storeMember_Event (members : List (String × JSON)) (d : DecodeState) :
    (members.foldl storeMember d).ev.Event =
      members.foldl (fun ev kv =>
        match fieldOfKey kv.1, kv.2 with
        | some Field.Event, JSON.str s => s
        | _, _ => ev) d.ev.Event := by
  induction members generalizing d with
  | nil => rfl
  | cons kv rest ih =>
    simp only [List.foldl_cons]
    rw [ih (storeMember d kv), storeMember_Event]

/-- The event of a decoded object is its event member. -/
theorem decodeWsEvent_Event (members : List (String × JSON)) (e : WsEvent)
    (h : decodeWsEvent (JSON.obj members) = .ok e) : e.Event = eventMember members := by
  simp only [decodeWsEvent] at h
  split at h
  · simp at h
  · simp only [Except.ok.injEq] at h
    rw [← h, foldl_storeMember_Event]
    rfl

/-- Members none of which is stored into `Event` leave the event as it is. -/
theorem foldl_event_keeps (members : List (String × JSON)) (ev0 : String)
    (hno : ∀ kv ∈ members, fieldOfKey kv.1 ≠ some Field.Event) :
    members.foldl (fun ev kv =>
      match fieldOfKey kv.1, kv.2 with
      | some Field.Event, JSON.str s => s
      | _, _ => ev) ev0 = ev0 := by
  induction members generalizing ev0 with
  | nil => rfl
  | cons kv rest ih =>
    simp only [List.foldl_cons]
    have hk := hno kv (List.mem_cons_self _ _)
    have hstep : (match fieldOfKey kv.1, kv.2 with
        | some Field.Event, JSON.str s => s
        | _, _ => ev0) = ev0 := by
      split
      · rename_i h1 _; exact absurd h1 hk
      · rfl
    rw [hstep]
    exact ih ev0 (fun x hx => hno x (List.mem_cons_of_mem _ hx))

/-- The event member is the string of the last member stored into `Event`. -/
theorem eventMember_last (front back : List (String × JSON)) (key s : String)
    (hk : fieldOfKey key = some Field.Event)
    (hno : ∀ kv ∈ back, fieldOfKey kv.1 ≠ some Field.Event) :
    eventMember (front ++ (key, JSON.str s) :: back) = s := by
  unfold eventMember
  rw [List.foldl_append, List.foldl_cons]
  simp only [hk]
  exact foldl_event_keeps back s hno

/-- C7 (as amended). For every frame body the reader loop reads, with no stop
signal pending: either `json.Unmarshal` fails, and that error is put on
`Errors` and nothing on `Stream`; or it succeeds, and the decoded envelope is
put on `Stream` and nothing on `Errors`. A frame that decodes is `null` or an
object. The event field of the envelope of an object is the event member of
the object: the string of the last member whose key is `event` up to letter
case, and the empty string if there is no such member, as for the empty
object or an object with only a `channel` member. The envelope of `null` is
the zero envelope. -/
theorem reader_emits_error_or_decoded_envelope (c : WsClient) (message : String)
    (hd : c.done = []) (hx : c.exited = false) (hr : c.readErr = none) :
    ((∃ err, jsonUnmarshal message = .error err ∧
        (step c (Step.iter (Delivery.frame message))).Errors = c.Errors ++ [err] ∧
        (step c (Step.iter (Delivery.frame message))).Stream = c.Stream) ∨
      (∃ e, jsonUnmarshal message = .ok e ∧
        (step c (Step.iter (Delivery.frame message))).Stream = c.Stream ++ [e] ∧
        (step c (Step.iter (Delivery.frame message))).Errors = c.Errors)) ∧
    (∀ e, jsonUnmarshal message = .ok e →
      (parseJSON message = some JSON.null ∧ e = WsEvent.zero) ∨
      (∃ members, parseJSON message = some (JSON.obj members) ∧
        e.Event = eventMember members)) ∧
    (∀ (front back : List (String × JSON)) (key s : String),
      fieldOfKey key = some Field.Event →
      (∀ kv ∈ back, fieldOfKey kv.1 ≠ some Field.Event) →
      eventMember (front ++ (key, JSON.str s) :: back) = s) ∧
    (∀ members : List (String × JSON),
      (∀ kv ∈ members, fieldOfKey kv.1 ≠ some Field.Event) → eventMember members = "") ∧
    jsonUnmarshal "\x7b\x22event\x22:\x22trade\x22,\x22channel\x22:\x22x\x22\x7d"
      = .ok { Event := "trade", Channel := "x", Data := JSON.null } ∧
    jsonUnmarshal "\x7b\x7d" = .ok { Event := "", Channel := "", Data := JSON.null } ∧
    jsonUnmarshal "\x7b\x22channel\x22:\x22x\x22\x7d"
      = .ok { Event := "", Channel := "x", Data := JSON.null } := by
  have h1 : step c (Step.iter (Delivery.frame message))
      = readerIter c (Delivery.frame message) := by simp [step, hx]
  rw [h1, readerIter_frame c message hd hr]
  refine ⟨?_, ?_, eventMember_last, fun members hno => foldl_event_keeps members "" hno,
    rfl, rfl, rfl⟩
  · cases h : jsonUnmarshal message with
    | error err =>
      left
      exact ⟨err, rfl, by simp [decodeError, h], by simp [decoded, h]⟩
    | ok e =>
      right
      exact ⟨e, rfl, by simp [decoded, h], by simp [decodeError, h]⟩
  · intro e hu
    unfold jsonUnmarshal at hu
    cases hp : parseJSON message with
    | none => simp [hp] at hu
    | some v =>
      simp only [hp] at hu
      cases v with
      | obj members => exact Or.inr ⟨members, rfl, decodeWsEvent_Event members e hu⟩
      | null =>
        simp only [decodeWsEvent, Except.ok.injEq] at hu
        exact Or.inl ⟨rfl, hu.symm⟩
      | bool b => simp [decodeWsEvent] at hu
      | num lit => simp [decodeWsEvent] at hu
      | str s => simp [decodeWsEvent] at hu
      | arr items => simp [decodeWsEvent] at hu

/-- C7 (as amended) at a fresh client and a frame with an event member, which
decodes: the envelope goes on `Stream` with that event. -/
theorem reader_emits_error_or_decoded_envelope_witness :
    (WsClient.fresh (fun _ => none)).done = [] ∧
    (WsClient.fresh (fun _ => none)).exited = false ∧
    (WsClient.fresh (fun _ => none)).readErr = none ∧
    ((∃ err, jsonUnmarshal "\x7b\x22event\x22:\x22trade\x22\x7d" = .error err ∧
        (step (WsClient.fresh (fun _ => none))
            (Step.iter (Delivery.frame "\x7b\x22event\x22:\x22trade\x22\x7d"))).Errors
          = (WsClient.fresh (fun _ => none)).Errors ++ [err] ∧
        (step (WsClient.fresh (fun _ => none))
            (Step.iter (Delivery.frame "\x7b\x22event\x22:\x22trade\x22\x7d"))).Stream
          = (WsClient.fresh (fun _ => none)).Stream) ∨
      (∃ e, jsonUnmarshal "\x7b\x22event\x22:\x22trade\x22\x7d" = .ok e ∧
        (step (WsClient.fresh (fun _ => none))
            (Step.iter (Delivery.frame "\x7b\x22event\x22:\x22trade\x22\x7d"))).Stream
          = (WsClient.fresh (fun _ => none)).Stream ++ [e] ∧
        (step (WsClient.fresh (fun _ => none))
            (Step.iter (Delivery.frame "\x7b\x22event\x22:\x22trade\x22\x7d"))).Errors
          = (WsClient.fresh (fun _ => none)).Errors)) ∧
    (step (WsClient.fresh (fun _ => none))
        (Step.iter (Delivery.frame "\x7b\x22event\x22:\x22trade\x22\x7d"))).Stream.map
          WsEvent.Event = ["trade"] :=
  ⟨rfl, rfl, rfl,
    (reader_emits_error_or_decoded_envelope (WsClient.fresh (fun _ => none))
      "\x7b\x22event\x22:\x22trade\x22\x7d" rfl rfl rfl).1, by decide⟩

/-- C7, counterexample: the frame bodies `{}` and `{"channel":"x"}` decode
without error, and the reader loop puts on `Stream` one envelope for each,
both with an empty event field, and nothing on `Errors`. -/
theorem reader_emits_empty_event :
    (run (WsClient.fresh (fun _ => none))
        (deliver ["\x7b\x7d", "\x7b\x22channel\x22:\x22x\x22\x7d"])).Stream.map
          (fun e => (e.Event, e.Channel))
      = [("", ""), ("", "x")] ∧
    (run (WsClient.fresh (fun _ => none))
        (deliver ["\x7b\x7d", "\x7b\x22channel\x22:\x22x\x22\x7d"])).Errors = [] := by
  decide

/-! ## Concurrent callers -/

theorem Pc.holdsLock_of_isWriting (p : Pc) (h : p.isWriting = true) : p.holdsLock = true := by
  cases p <;> simp_all [Pc.isWriting, Pc.holdsLock]

theorem Pc.not_isWriting_of_not_holdsLock (p : Pc) (h : p.holdsLock = false) :
    p.isWriting = false := by
  cases p <;> simp_all [Pc.isWriting, Pc.holdsLock]

theorem Shared.setCaller_self (s : Shared) (i : Nat) (t : Caller) :
    (s.setCaller i t).callers i = t := by
  simp [Shared.setCaller]

theorem Shared.setCaller_other (s : Shared) (i j : Nat) (t : Caller) (h : j ≠ i) :
    (s.setCaller i t).callers j = s.callers j := by
  simp [Shared.setCaller, h]

theorem Shared.Exclusive_start (wo : Nat → Option GoError) (calls : Nat → List Call) :
    (Shared.start wo calls).Exclusive := by
  refine ⟨?_, ?_, ?_, ?_, ?_, ?_⟩ <;> simp [Shared.start, Pc.holdsLock, Pc.isWriting]

/-- A step of caller `i` that neither takes nor releases the mutex, and
neither starts nor ends a write, keeps the invariant. -/
theorem Shared.Exclusive_quiet (s : Shared) (i : Nat) (t : Caller) (h : s.Exclusive)
    (hold : (s.callers i).pc.holdsLock = false) (hnew : t.pc.holdsLock = false)
    (hsub : ∀ v sub rest, (t.pc = Pc.lock v sub rest ∨ t.pc = Pc.write v sub rest) →
      ∃ name, sub = v.event name) :
    (s.setCaller i t).Exclusive := by
  obtain ⟨h1, h2, h3, h4, h5, h6⟩ := h
  refine ⟨?_, ?_, ?_, ?_, ?_, h6⟩
  · intro a b ha hb
    by_cases hai : a = i
    · subst hai; rw [Shared.setCaller_self] at ha; simp [hnew] at ha
    · by_cases hbi : b = i
      · subst hbi; rw [Shared.setCaller_self] at hb; simp [hnew] at hb
      · rw [Shared.setCaller_other _ _ _ _ hai] at ha
        rw [Shared.setCaller_other _ _ _ _ hbi] at hb
        exact h1 a b ha hb
  · intro hl a
    by_cases hai : a = i
    · subst hai; rw [Shared.setCaller_self]; exact hnew
    · rw [Shared.setCaller_other _ _ _ _ hai]; exact h2 hl a
  · rintro ⟨a, ha⟩
    by_cases hai : a = i
    · subst hai
      rw [Shared.setCaller_self, Pc.not_isWriting_of_not_holdsLock _ hnew] at ha
      simp at ha
    · rw [Shared.setCaller_other _ _ _ _ hai] at ha
      exact h3 ⟨a, ha⟩
  · intro hall
    apply h4
    intro a
    by_cases hai : a = i
    · subst hai; exact Pc.not_isWriting_of_not_holdsLock _ hold
    · have := hall a
      rwa [Shared.setCaller_other _ _ _ _ hai] at this
  · intro a v sub rest hor
    by_cases hai : a = i
    · subst hai; rw [Shared.setCaller_self] at hor; exact hsub v sub rest hor
    · rw [Shared.setCaller_other _ _ _ _ hai] at hor; exact h5 a v sub rest hor

theorem Shared.Exclusive_step (s : Shared) (i : Nat) (h : s.Exclusive) : (s.step i).Exclusive := by
  have hall := h
  obtain ⟨h1, h2, h3, h4, h5, h6⟩ := h
  unfold Shared.step
  simp only []
  cases hpc : (s.callers i).pc with
  | idle =>
    simp only []
    cases hcalls : (s.callers i).calls with
    | nil => exact hall
    | cons call more =>
      exact Shared.Exclusive_quiet s i _ hall (by simp [hpc, Pc.holdsLock]) (by simp [Pc.holdsLock])
        (by simp)
  | loop v rest =>
    cases rest with
    | nil =>
      exact Shared.Exclusive_quiet s i _ hall (by simp [hpc, Pc.holdsLock]) (by simp [Pc.holdsLock])
        (by simp)
    | cons channel rest =>
      refine Shared.Exclusive_quiet s i _ hall (by simp [hpc, Pc.holdsLock])
        (by simp [Pc.holdsLock]) ?_
      intro v1 sub1 rest1 hor
      simp only [Pc.lock.injEq, false_and, or_false] at hor
      simp only [reduceCtorEq, or_false] at hor
      obtain ⟨hv, hs, _⟩ := hor
      exact ⟨channel, by rw [← hv, ← hs]⟩
  | lock v sub rest =>
    simp only []
    cases hl : s.sendLock with
    | true => simpa using hall
    | false =>
      have hnone := h2 hl
      simp only [Bool.false_eq_true, if_false]
      refine ⟨?_, ?_, ?_, ?_, ?_, h6⟩
      · intro a b ha hb
        by_cases hai : a = i
        · by_cases hbi : b = i
          · rw [hai, hbi]
          · simp only [Shared.setCaller_other _ _ _ _ hbi] at hb
            rw [hnone b] at hb; simp at hb
        · simp only [Shared.setCaller_other _ _ _ _ hai] at ha
          rw [hnone a] at ha; simp at ha
      · intro hf; simp at hf
      · rintro ⟨a, ha⟩
        exfalso
        by_cases hai : a = i
        · subst hai; simp [Shared.setCaller_self, Pc.isWriting] at ha
        · simp only [Shared.setCaller_other _ _ _ _ hai] at ha
          rw [Pc.not_isWriting_of_not_holdsLock _ (hnone a)] at ha; simp at ha
      · intro _
        exact h4 (fun a => Pc.not_isWriting_of_not_holdsLock _ (hnone a))
      · intro a v1 sub1 rest1 hor
        by_cases hai : a = i
        · subst hai
          simp only [Shared.setCaller_self, reduceCtorEq, false_or, Pc.write.injEq] at hor
          obtain ⟨hv, hs, hr⟩ := hor
          subst hv hs hr
          exact h5 a v sub rest (Or.inl hpc)
        · simp only [Shared.setCaller_other _ _ _ _ hai] at hor
          exact h5 a v1 sub1 rest1 hor
  | write v sub rest =>
    have hi : (s.callers i).pc.holdsLock = true := by simp [hpc, Pc.holdsLock]
    have hothers : ∀ a, a ≠ i → (s.callers a).pc.isWriting = false := by
      intro a hai
      cases hw : (s.callers a).pc.isWriting with
      | false => rfl
      | true => exact absurd (h1 a i (Pc.holdsLock_of_isWriting _ hw) hi) hai
    refine ⟨?_, ?_, ?_, ?_, ?_, ?_⟩
    · intro a b ha hb
      by_cases hai : a = i
      · by_cases hbi : b = i
        · rw [hai, hbi]
        · simp only [Shared.setCaller_other _ _ _ _ hbi] at hb
          rw [hai]; exact h1 i b hi hb
      · simp only [Shared.setCaller_other _ _ _ _ hai] at ha
        by_cases hbi : b = i
        · rw [hbi]; exact h1 a i ha hi
        · simp only [Shared.setCaller_other _ _ _ _ hbi] at hb
          exact h1 a b ha hb
    · intro hf
      have := h2 hf i
      rw [hi] at this; simp at this
    · intro _
      have h0 : s.inFlight = 0 := by
        apply h4
        intro a
        by_cases hai : a = i
        · subst hai; simp [hpc, Pc.isWriting]
        · exact hothers a hai
      simp [h0]
    · intro hallnew
      have := hallnew i
      simp [Shared.setCaller_self, Pc.isWriting] at this
    · intro a v1 sub1 rest1 hor
      by_cases hai : a = i
      · subst hai; simp [Shared.setCaller_self] at hor
      · simp only [Shared.setCaller_other _ _ _ _ hai] at hor
        exact h5 a v1 sub1 rest1 hor
    · intro e he
      simp only [List.mem_append, List.mem_singleton] at he
      rcases he with he | he
      · exact h6 e he
      · obtain ⟨name, hn⟩ := h5 i v sub rest (Or.inr hpc)
        exact ⟨v, name, by rw [he, hn]⟩
  | writing v k rest =>
    have hi : (s.callers i).pc.holdsLock = true := by simp [hpc, Pc.holdsLock]
    have hothers : ∀ a, a ≠ i → (s.callers a).pc.isWriting = false := by
      intro a hai
      cases hw : (s.callers a).pc.isWriting with
      | false => rfl
      | true => exact absurd (h1 a i (Pc.holdsLock_of_isWriting _ hw) hi) hai
    refine ⟨?_, ?_, ?_, ?_, ?_, h6⟩
    · intro a b ha hb
      by_cases hai : a = i
      · by_cases hbi : b = i
        · rw [hai, hbi]
        · simp only [Shared.setCaller_other _ _ _ _ hbi] at hb
          rw [hai]; exact h1 i b hi hb
      · simp only [Shared.setCaller_other _ _ _ _ hai] at ha
        by_cases hbi : b = i
        · rw [hbi]; exact h1 a i ha hi
        · simp only [Shared.setCaller_other _ _ _ _ hbi] at hb
          exact h1 a b ha hb
    · intro hf
      have := h2 hf i
      rw [hi] at this; simp at this
    · rintro ⟨a, ha⟩
      exfalso
      by_cases hai : a = i
      · subst hai; simp [Shared.setCaller_self, Pc.isWriting] at ha
      · simp only [Shared.setCaller_other _ _ _ _ hai] at ha
        rw [hothers a hai] at ha; simp at ha
    · intro _
      have h1f : s.inFlight = 1 := h3 ⟨i, by simp [hpc, Pc.isWriting]⟩
      simp [h1f]
    · intro a v1 sub1 rest1 hor
      by_cases hai : a = i
      · subst hai; simp [Shared.setCaller_self] at hor
      · simp only [Shared.setCaller_other _ _ _ _ hai] at hor
        exact h5 a v1 sub1 rest1 hor
  | unlock v res rest =>
    have hi : (s.callers i).pc.holdsLock = true := by simp [hpc, Pc.holdsLock]
    have hfree : ∀ a, a ≠ i → (s.callers a).pc.holdsLock = false := by
      intro a hai
      cases hw : (s.callers a).pc.holdsLock with
      | false => rfl
      | true => exact absurd (h1 a i hw hi) hai
    have key : ∀ t : Caller, t.pc.holdsLock = false →
        (∀ v sub rest, ¬ (t.pc = Pc.lock v sub rest ∨ t.pc = Pc.write v sub rest)) →
        Shared.Exclusive { s.setCaller i t with sendLock := false } := by
      intro t ht hsub
      refine ⟨?_, ?_, ?_, ?_, ?_, h6⟩
      · intro a b ha hb
        exfalso
        by_cases hai : a = i
        · subst hai; simp [Shared.setCaller_self, ht] at ha
        · simp only [Shared.setCaller_other _ _ _ _ hai] at ha
          rw [hfree a hai] at ha; simp at ha
      · intro _ a
        by_cases hai : a = i
        · subst hai; simpa [Shared.setCaller_self] using ht
        · simp only [Shared.setCaller_other _ _ _ _ hai]
          exact hfree a hai
      · rintro ⟨a, ha⟩
        exfalso
        by_cases hai : a = i
        · subst hai
          simp only [Shared.setCaller_self] at ha
          rw [Pc.not_isWriting_of_not_holdsLock _ ht] at ha; simp at ha
        · simp only [Shared.setCaller_other _ _ _ _ hai] at ha
          rw [Pc.not_isWriting_of_not_holdsLock _ (hfree a hai)] at ha; simp at ha
      · intro _
        apply h4
        intro a
        by_cases hai : a = i
        · subst hai; simp [hpc, Pc.isWriting]
        · exact Pc.not_isWriting_of_not_holdsLock _ (hfree a hai)
      · intro a v1 sub1 rest1 hor
        by_cases hai : a = i
        · subst hai
          simp only [Shared.setCaller_self] at hor
          exact absurd hor (hsub v1 sub1 rest1)
        · simp only [Shared.setCaller_other _ _ _ _ hai] at hor
          exact h5 a v1 sub1 rest1 hor
    cases res with
    | some err => exact key _ (by simp [Pc.holdsLock]) (by simp)
    | none => exact key _ (by simp [Pc.holdsLock]) (by simp)

theorem Shared.Exclusive_run (s : Shared) (schedule : List Nat) (h : s.Exclusive) :
    (s.run schedule).Exclusive := by
  induction schedule generalizing s with
  | nil => exact h
  | cons i rest ih => exact ih (s.step i) (Shared.Exclusive_step s i h)

/-- C10. In every interleaving of `Subscribe` and `Unsubscribe` calls by any
number of callers on one client, at every moment: at most one `WriteJSON` call
is in flight; a caller inside `WriteJSON` holds the mutex, which is then
locked, and is the only caller holding it; a caller at `WriteJSON` has the
mutex locked; the deferred `Unlock` frees the mutex whether `WriteJSON`
failed or not; and every value handed to the transport is a whole envelope
built by one of the two calls. -/
theorem sends_are_mutually_exclusive (wo : Nat → Option GoError) (calls : Nat → List Call)
    (schedule : List Nat) :
    ((Shared.start wo calls).run schedule).inFlight ≤ 1 ∧
    (∀ i, (((Shared.start wo calls).run schedule).callers i).pc.isWriting = true →
      ((Shared.start wo calls).run schedule).sendLock = true ∧
      ((Shared.start wo calls).run schedule).inFlight = 1 ∧
      ∀ j, (((Shared.start wo calls).run schedule).callers j).pc.holdsLock = true → j = i) ∧
    (∀ i, (((Shared.start wo calls).run schedule).callers i).pc.holdsLock = true →
      ((Shared.start wo calls).run schedule).sendLock = true) ∧
    (∀ i v res rest,
      (((Shared.start wo calls).run schedule).callers i).pc = Pc.unlock v res rest →
      (((Shared.start wo calls).run schedule).step i).sendLock = false) ∧
    (∀ e ∈ ((Shared.start wo calls).run schedule).written,
      ∃ (v : Verb) (name : String), e = v.event name) := by
  obtain ⟨h1, h2, h3, h4, _, h6⟩ :=
    Shared.Exclusive_run (Shared.start wo calls) schedule (Shared.Exclusive_start wo calls)
  have hheld : ∀ i, (((Shared.start wo calls).run schedule).callers i).pc.holdsLock = true →
      ((Shared.start wo calls).run schedule).sendLock = true := by
    intro i hi
    cases hl : ((Shared.start wo calls).run schedule).sendLock with
    | true => rfl
    | false => rw [h2 hl i] at hi; simp at hi
  refine ⟨?_, ?_, hheld, ?_, h6⟩
  · by_cases hw : ∃ i, (((Shared.start wo calls).run schedule).callers i).pc.isWriting = true
    · rw [h3 hw]
    · rw [h4 (fun i => by simpa using fun h => hw ⟨i, h⟩)]
      exact Nat.zero_le 1
  · intro i hi
    have hh := Pc.holdsLock_of_isWriting _ hi
    exact ⟨hheld i hh, h3 ⟨i, hi⟩, fun j hj => h1 j i hj hh⟩
  · intro i v res rest hpc
    unfold Shared.step
    simp only [hpc]
    cases res <;> rfl

/-! ## The machine against the sequential functions -/

theorem Shared.schedule_nil (s : Shared) : s.run [] = s := rfl

theorem Shared.schedule_cons (s : Shared) (i : Nat) (rest : List Nat) :
    s.run (i :: rest) = (s.step i).run rest := rfl

theorem Shared.schedule_append (s : Shared) (xs ys : List Nat) :
    s.run (xs ++ ys) = (s.run xs).run ys := by
  simp [Shared.run, List.foldl_append]

/-- The five steps of one `sendEvent` call made by caller `i` while the mutex
is free, from the head of the loop back to it (or out of the call, when the
write fails). -/
theorem Shared.send_one (s : Shared) (i : Nat) (v : Verb) (channel : String)
    (rest : List String) (hpc : (s.callers i).pc = Pc.loop v (channel :: rest))
    (hl : s.sendLock = false) :
    (s.run [i, i, i, i, i]).written = s.written ++ [v.event channel] ∧
    (s.run [i, i, i, i, i]).writeOutcome = s.writeOutcome ∧
    (s.run [i, i, i, i, i]).sendLock = false ∧
    (s.run [i, i, i, i, i]).inFlight = s.inFlight ∧
    ((s.run [i, i, i, i, i]).callers i).calls = (s.callers i).calls ∧
    (match s.writeOutcome s.written.length with
      | some e =>
        ((s.run [i, i, i, i, i]).callers i).pc = Pc.idle ∧
        ((s.run [i, i, i, i, i]).callers i).returned = (s.callers i).returned ++
          [some (GoError.wrap "c.sendEvent" (GoError.wrap "c.ws.WriteJSON" e))]
      | none =>
        ((s.run [i, i, i, i, i]).callers i).pc = Pc.loop v rest ∧
        ((s.run [i, i, i, i, i]).callers i).returned = (s.callers i).returned) := by
  simp only [Shared.schedule_cons, Shared.schedule_nil]
  have e1 : s.step i = s.setCaller i { s.callers i with pc := Pc.lock v (v.event channel) rest } := by
    unfold Shared.step; simp only [hpc]
  rw [e1]
  generalize h1 : s.setCaller i { s.callers i with pc := Pc.lock v (v.event channel) rest } = s1
  have p1 : (s1.callers i).pc = Pc.lock v (v.event channel) rest := by
    rw [← h1, Shared.setCaller_self]
  have l1 : s1.sendLock = false := by rw [← h1]; exact hl
  have e2 : s1.step i = { s1.setCaller i { s1.callers i with pc := Pc.write v (v.event channel) rest }
      with sendLock := true } := by
    unfold Shared.step; simp only [p1, l1, Bool.false_eq_true, if_false]
  rw [e2]
  generalize h2 : ({ s1.setCaller i { s1.callers i with pc := Pc.write v (v.event channel) rest }
      with sendLock := true } : Shared) = s2
  have p2 : (s2.callers i).pc = Pc.write v (v.event channel) rest := by
    rw [← h2]; simp [Shared.setCaller]
  have e3 : s2.step i = { s2.setCaller i { s2.callers i with pc := Pc.writing v s2.written.length rest }
      with written := s2.written ++ [v.event channel], inFlight := s2.inFlight + 1 } := by
    unfold Shared.step; simp only [p2]
  rw [e3]
  generalize h3 : ({ s2.setCaller i { s2.callers i with pc := Pc.writing v s2.written.length rest }
      with written := s2.written ++ [v.event channel], inFlight := s2.inFlight + 1 } : Shared) = s3
  have p3 : (s3.callers i).pc = Pc.writing v s2.written.length rest := by
    rw [← h3]; simp [Shared.setCaller]
  have e4 : s3.step i = { s3.setCaller i { s3.callers i with
      pc := Pc.unlock v ((s3.writeOutcome s2.written.length).map (GoError.wrap "c.ws.WriteJSON")) rest }
      with inFlight := s3.inFlight - 1 } := by
    unfold Shared.step; simp only [p3]
  rw [e4]
  generalize h4 : ({ s3.setCaller i { s3.callers i with
      pc := Pc.unlock v ((s3.writeOutcome s2.written.length).map (GoError.wrap "c.ws.WriteJSON")) rest }
      with inFlight := s3.inFlight - 1 } : Shared) = s4
  have p4 : (s4.callers i).pc
      = Pc.unlock v ((s3.writeOutcome s2.written.length).map (GoError.wrap "c.ws.WriteJSON")) rest := by
    rw [← h4]; simp [Shared.setCaller]
  have w2 : s2.written = s.written := by rw [← h2, ← h1]; rfl
  have o3 : s3.writeOutcome = s.writeOutcome := by rw [← h3, ← h2, ← h1]; rfl
  rw [w2, o3] at p4
  have w4 : s4.written = s.written ++ [v.event channel] := by rw [← h4, ← h3, w2]; rfl
  have o4 : s4.writeOutcome = s.writeOutcome := by rw [← h4]; exact o3
  have f4 : s4.inFlight = s.inFlight := by
    rw [← h4, ← h3, ← h2, ← h1]; simp [Shared.setCaller]
  have c4 : (s4.callers i).calls = (s.callers i).calls := by
    rw [← h4, ← h3, ← h2, ← h1]; simp [Shared.setCaller]
  have r4 : (s4.callers i).returned = (s.callers i).returned := by
    rw [← h4, ← h3, ← h2, ← h1]; simp [Shared.setCaller]
  cases hw : s.writeOutcome s.written.length with
  | some e =>
    rw [hw] at p4
    have e5 : s4.step i = { s4.setCaller i ⟨Pc.idle, (s4.callers i).calls,
        (s4.callers i).returned ++
          [some (GoError.wrap "c.sendEvent" (GoError.wrap "c.ws.WriteJSON" e))]⟩
        with sendLock := false } := by
      unfold Shared.step; simp only [p4, Option.map_some']
    rw [e5]
    simp [Shared.setCaller, w4, o4, f4, c4, r4]
  | none =>
    rw [hw] at p4
    have e5 : s4.step i = { s4.setCaller i { s4.callers i with pc := Pc.loop v rest }
        with sendLock := false } := by
      unfold Shared.step; simp only [p4, Option.map_none']
    rw [e5]
    simp [Shared.setCaller, w4, o4, f4, c4, r4]

/-- A caller that runs alone from the head of its loop, the mutex free,
finishes its call: it has attempted the writes `attempts` counts, and records
the result `attempts` gives. -/
theorem Shared.solo_loop (i : Nat) (v : Verb) (chs : List String) :
    ∀ s : Shared, (s.callers i).pc = Pc.loop v chs → s.sendLock = false →
    ∃ n,
      (s.run (List.replicate n i)).written = s.written
        ++ (chs.take (attempts s.writeOutcome s.written.length chs.length).1).map v.event ∧
      ((s.run (List.replicate n i)).callers i).returned = (s.callers i).returned
        ++ [(attempts s.writeOutcome s.written.length chs.length).2.map
            (fun e => GoError.wrap "c.sendEvent" (GoError.wrap "c.ws.WriteJSON" e))] ∧
      ((s.run (List.replicate n i)).callers i).pc = Pc.idle ∧
      (s.run (List.replicate n i)).sendLock = false ∧
      (s.run (List.replicate n i)).inFlight = s.inFlight := by
  induction chs with
  | nil =>
    intro s hpc hl
    refine ⟨1, ?_⟩
    have e1 : s.step i = s.setCaller i ⟨Pc.idle, (s.callers i).calls, (s.callers i).returned ++ [none]⟩ := by
      unfold Shared.step; simp only [hpc]
    simp only [List.replicate, Shared.schedule_cons, Shared.schedule_nil, e1]
    simp [Shared.setCaller, attempts, hl]
  | cons ch rest ih =>
    intro s hpc hl
    obtain ⟨hw, ho, hl5, hf, _, hcase⟩ := Shared.send_one s i v ch rest hpc hl
    cases hwo : s.writeOutcome s.written.length with
    | some e =>
      rw [hwo] at hcase
      refine ⟨5, ?_⟩
      simp only [List.replicate, attempts, hwo, List.length_cons]
      exact ⟨by simpa using hw, by simpa using hcase.2, hcase.1, hl5, hf⟩
    | none =>
      rw [hwo] at hcase
      obtain ⟨n, a1, a2, a3, a4, a5⟩ := ih (s.run [i, i, i, i, i]) hcase.1 hl5
      refine ⟨5 + n, ?_⟩
      have hrep : List.replicate (5 + n) i = [i, i, i, i, i] ++ List.replicate n i := by
        rw [List.replicate_add]; rfl
      rw [hrep, Shared.schedule_append]
      rw [hw, ho, List.length_append, List.length_singleton] at a1
      rw [hw, ho, List.length_append, List.length_singleton, hcase.2] at a2
      simp only [attempts, hwo, List.length_cons]
      refine ⟨?_, a2, a3, a4, a5.trans hf⟩
      rw [a1]; simp

theorem Call.apply_eq_sendAll (call : Call) (c : WsClient) :
    call.apply c = sendAll call.verb.event c call.channels := by
  unfold Call.apply
  cases h : call.verb with
  | subscribe => simp only [Verb.event]; exact Subscribe_eq_sendAll c call.channels
  | unsubscribe => simp only [Verb.event]; exact Unsubscribe_eq_sendAll c call.channels

/-- A caller alone on the client, stepping through `Subscribe` or
`Unsubscribe` statement by statement, hands the transport the values the
sequential function hands it and returns what that function returns, with the
mutex free and no write in flight at the end. -/
theorem solo_caller_agrees (wo : Nat → Option GoError) (call : Call) :
    ∃ n,
      ((Shared.start wo (soloCalls call)).run (List.replicate n 0)).written
        = (call.apply (WsClient.fresh wo)).1.written ∧
      (((Shared.start wo (soloCalls call)).run (List.replicate n 0)).callers 0).returned
        = [(call.apply (WsClient.fresh wo)).2] ∧
      ((Shared.start wo (soloCalls call)).run (List.replicate n 0)).sendLock = false ∧
      ((Shared.start wo (soloCalls call)).run (List.replicate n 0)).inFlight = 0 := by
  have e1 : (Shared.start wo (soloCalls call)).step 0
      = (Shared.start wo (soloCalls call)).setCaller 0 ⟨Pc.loop call.verb call.channels, [], []⟩ := by
    unfold Shared.step; simp [Shared.start, soloCalls]
  obtain ⟨n, a1, a2, _, a4, a5⟩ := Shared.solo_loop 0 call.verb call.channels
    ((Shared.start wo (soloCalls call)).setCaller 0 ⟨Pc.loop call.verb call.channels, [], []⟩)
    (by simp [Shared.setCaller]) (by simp [Shared.setCaller, Shared.start])
  refine ⟨1 + n, ?_⟩
  have hrep : List.replicate (1 + n) 0 = [0] ++ List.replicate n 0 := by
    rw [List.replicate_add]; rfl
  rw [hrep, Shared.schedule_append, Shared.schedule_cons, Shared.schedule_nil, e1]
  have hs := sendAll_spec call.verb.event (WsClient.fresh wo) call.channels
  rw [Call.apply_eq_sendAll, hs.1, hs.2]
  refine ⟨?_, ?_, a4, ?_⟩
  · rw [a1]; simp [Shared.setCaller, Shared.start, WsClient.fresh]
  · rw [a2]; simp [Shared.setCaller, Shared.start, WsClient.fresh]
  · rw [a5]; simp [Shared.setCaller, Shared.start]

/-- Two callers, one subscribing to `A` and one unsubscribing from `C`: while
caller 0 is inside `WriteJSON`, caller 1 stays at `Lock`; when both have run
to the end, the transport has received the two envelopes one after the other
and both calls have returned nil. -/
theorem two_callers_example :
    (((Shared.start (fun _ => none)
        (fun i => if i = 0 then [⟨Verb.subscribe, ["A"]⟩]
          else if i = 1 then [⟨Verb.unsubscribe, ["C"]⟩] else [])).run
        [0, 1, 0, 1, 0, 0, 1, 1, 1]).inFlight = 1) ∧
    ((((Shared.start (fun _ => none)
        (fun i => if i = 0 then [⟨Verb.subscribe, ["A"]⟩]
          else if i = 1 then [⟨Verb.unsubscribe, ["C"]⟩] else [])).run
        [0, 1, 0, 1, 0, 0, 1, 1, 1]).callers 1).pc.holdsLock = false) ∧
    (((Shared.start (fun _ => none)
        (fun i => if i = 0 then [⟨Verb.subscribe, ["A"]⟩]
          else if i = 1 then [⟨Verb.unsubscribe, ["C"]⟩] else [])).run
        [0, 1, 0, 1, 0, 0, 1, 1, 1, 0, 0, 0, 1, 1, 1, 1, 1]).written.map WsEvent.Event
      = ["bts:subscribe", "bts:unsubscribe"]) ∧
    ((((Shared.start (fun _ => none)
        (fun i => if i = 0 then [⟨Verb.subscribe, ["A"]⟩]
          else if i = 1 then [⟨Verb.unsubscribe, ["C"]⟩] else [])).run
        [0, 1, 0, 1, 0, 0, 1, 1, 1, 0, 0, 0, 1, 1, 1, 1, 1]).callers 1).returned = [none]) := by
  decide

/-! ## Construction -/

/-- `NewWsClient` fails exactly when the dial fails. Its error is formatted
with `%s`: it carries the text of the dial error and does not wrap it. -/
theorem NewWsClient_dial (writeOutcome : Nat → Option GoError) :
    NewWsClient none writeOutcome = .ok (WsClient.fresh writeOutcome) ∧
    (∀ err : GoError, ∃ e, NewWsClient (some err) writeOutcome = .error e ∧
      e.Error = "error dialing websocket: " ++ err.Error ∧ e.Unwrap = none) := by
  refine ⟨rfl, fun err => ⟨_, rfl, rfl, rfl⟩⟩

end Bitstamp
